import Mathlib

/-!
Shallow embedding of the XMR statistical-process-control engine of
`src/lib/xmr-calculations.ts`, together with theorems settling the claims
about it.

Modelling conventions:
* JavaScript `number` is modelled as `ℚ` (exact rational arithmetic).
* `Math.sqrt` never escapes the source functions: every comparison of the
  form `|v - mean| / stdDev > t` (with `stdDev = √variance`) is embedded as
  the equivalent `(v - mean)^2 > t^2 * variance` guarded by `variance > 0`,
  and `stdDev === 0` as `variance = 0`; squaring is strictly monotone on
  nonnegatives, so order, ties and thresholds are preserved exactly.
* `Math.round` is `⌊x + 1/2⌋` (JavaScript rounds halves towards +∞),
  `Math.floor` is `Int.floor` / `Nat.floor`.
* JavaScript's stable `Array.prototype.sort` is embedded as a stable
  insertion sort `insSortBy` (structural recursion, so that the kernel can
  evaluate it on concrete inputs).
* `undefined` flowing out of optional-chaining (`?.value`) is modelled with
  `Option`; a numeric comparison against `undefined`/`NaN` is `false`.
* `new Date(...)` calendar arithmetic is environment behaviour, abstracted
  into a `DateEnv` record of parsing/constructing functions; all seasonal
  theorems are proved for every such environment.
-/

namespace XmrCalc

-- ============================================================================
-- DATA TYPES (from src/lib/xmr-calculations.ts)
-- ============================================================================

/-- `DataPoint { timestamp, value, confidence? }`. -/
structure DataPoint where
  timestamp : String
  value : ℚ
  confidence : Option ℚ := none
deriving DecidableEq, Repr

/-- `MovingRangePoint { timestamp, value, range }`. -/
structure MovingRangePoint where
  timestamp : String
  value : ℚ
  range : ℚ
deriving DecidableEq, Repr

/-- `XMRLimits` — the seven control-limit statistics. -/
structure XMRLimits where
  avgX : ℚ
  avgMovement : ℚ
  UNPL : ℚ
  LNPL : ℚ
  URL : ℚ
  lowerQuartile : ℚ
  upperQuartile : ℚ
deriving DecidableEq, Repr

/-- `ViolationDetails` — one index list per Western Electric rule. -/
structure ViolationDetails where
  outsideLimits : List ℕ
  runningPoints : List ℕ
  fourNearLimit : List ℕ
  twoOfThreeBeyondTwoSigma : List ℕ
  fifteenWithinOneSigma : List ℕ
deriving DecidableEq, Repr

-- Constants from the source.
def NPL_SCALING : ℚ := 266/100
def URL_SCALING : ℚ := 3268/1000
def MEDIAN_NPL_SCALING : ℚ := 3145/1000
def MEDIAN_URL_SCALING : ℚ := 3865/1000

-- ============================================================================
-- ROUNDING AND SORTING HELPERS
-- ============================================================================

/-- `roundToDecimalPrecision(n, precision)`:
`Math.round(n * 10^precision) / 10^precision`, where JavaScript's
`Math.round x = ⌊x + 1/2⌋` (halves round towards +∞). -/
def roundToDecimalPrecision (n : ℚ) (precision : ℕ := 2) : ℚ :=
  let factor : ℚ := 10 ^ precision
  ((⌊n * factor + 1/2⌋ : ℤ) : ℚ) / factor

/-- `b` comes strictly before `a` under the total boolean preorder `le`. -/
def strictBefore (le : α → α → Bool) (b a : α) : Bool := le b a && !le a b

/-- Stable insertion step.  `insSortBy` inserts each element into the
already-sorted suffix of *later* elements, so for stability the inserted
element `a` must land *before* every element it ties with: the walk
continues only past elements strictly before `a`. -/
def insStep (le : α → α → Bool) (a : α) : List α → List α
  | [] => [a]
  | b :: bs =>
    if strictBefore le b a then b :: insStep le a bs else a :: b :: bs

/-- Stable insertion sort (each element is inserted into the sorted list of
the elements after it, and placed before any element it ties with), so tied
elements keep their original relative order, as JavaScript's stable
`Array.prototype.sort(cmp)` guarantees. -/
def insSortBy (le : α → α → Bool) : List α → List α
  | [] => []
  | a :: as_ => insStep le a (insSortBy le as_)

theorem insStep_perm (le : α → α → Bool) (a : α) (l : List α) :
    (insStep le a l).Perm (a :: l) := by
  induction l with
  | nil => simp [insStep]
  | cons b bs ih =>
    simp only [insStep]
    by_cases h : strictBefore le b a = true
    · simp only [h, if_true]
      exact ((ih.cons b).trans (List.Perm.swap a b bs)).symm.symm
    · simp [h]

theorem insSortBy_perm (le : α → α → Bool) (l : List α) :
    (insSortBy le l).Perm l := by
  induction l with
  | nil => simp [insSortBy]
  | cons a as_ ih =>
    exact (insStep_perm le a (insSortBy le as_)).trans (ih.cons a)

theorem insStep_pairwise (le : α → α → Bool)
    (htot : ∀ a b, le a b = true ∨ le b a = true)
    (htrans : ∀ a b c, le a b = true → le b c = true → le a c = true)
    (a : α) (l : List α) (hl : l.Pairwise (fun x y => le x y = true)) :
    (insStep le a l).Pairwise (fun x y => le x y = true) := by
  induction l with
  | nil => simp [insStep]
  | cons b bs ih =>
    rcases List.pairwise_cons.mp hl with ⟨hb, hbs⟩
    simp only [insStep]
    by_cases h : strictBefore le b a = true
    · simp only [h, if_true]
      have hba : le b a = true := by
        simp only [strictBefore, Bool.and_eq_true] at h
        exact h.1
      refine List.pairwise_cons.mpr ⟨?_, ih hbs⟩
      intro x hx
      rcases List.mem_cons.mp ((insStep_perm le a bs).mem_iff.mp hx) with hxa | hxm
      · subst hxa; exact hba
      · exact hb x hxm
    · simp only [h, if_false]
      have hab : le a b = true := by
        by_cases hab : le a b = true
        · exact hab
        · exfalso
          rcases htot a b with h1 | h1
          · exact hab h1
          · apply h
            have hab0 : le a b = false := by
              cases hx2 : le a b
              · rfl
              · exact absurd hx2 hab
            simp [strictBefore, h1, hab0]
      refine List.pairwise_cons.mpr ⟨?_, hl⟩
      intro x hx
      rcases List.mem_cons.mp hx with hxb | hxm
      · subst hxb
        exact hab
      · exact htrans a b x hab (hb x hxm)

theorem insSortBy_pairwise (le : α → α → Bool)
    (htot : ∀ a b, le a b = true ∨ le b a = true)
    (htrans : ∀ a b c, le a b = true → le b c = true → le a c = true)
    (l : List α) :
    (insSortBy le l).Pairwise (fun x y => le x y = true) := by
  induction l with
  | nil => simp [insSortBy]
  | cons a as_ ih => exact insStep_pairwise le htot htrans a _ ih

/-- Ascending numeric sort `(a, b) => a - b` on rationals. -/
def sortRatAsc (l : List ℚ) : List ℚ := insSortBy (fun a b => a ≤ b) l

/-- Ascending numeric sort `(a, b) => a - b` on indices. -/
def sortNatAsc (l : List ℕ) : List ℕ := insSortBy (fun a b => a ≤ b) l

theorem sortNatAsc_pairwise (l : List ℕ) :
    (sortNatAsc l).Pairwise (· ≤ ·) := by
  have h := insSortBy_pairwise (fun a b : ℕ => a ≤ b)
    (fun a b => by
      rcases Nat.le_total a b with h | h
      · exact Or.inl (by simpa using h)
      · exact Or.inr (by simpa using h))
    (fun a b c h1 h2 => by simp only [decide_eq_true_eq] at *; omega) l
  exact h.imp (fun h => by simpa using h)

theorem sortNatAsc_perm (l : List ℕ) : (sortNatAsc l).Perm l :=
  insSortBy_perm _ l

theorem sortRatAsc_perm (l : List ℚ) : (sortRatAsc l).Perm l :=
  insSortBy_perm _ l

-- ============================================================================
-- SERIES UTILITIES
-- ============================================================================

/-- `calculateMovingRanges(data)`: pairs each point from the second on with
`|value[i] - value[i-1]|`. -/
def calculateMovingRanges (data : List DataPoint) : List MovingRangePoint :=
  if data.length < 2 then []
  else
    (data.zip data.tail).map fun (prev, cur) =>
      { timestamp := cur.timestamp, value := cur.value,
        range := |cur.value - prev.value| }

/-- `calculateMedian(arr)`: 0 on empty, middle element (odd length) or mean of
the two middle elements (even length) of the ascending sort. -/
def calculateMedian (arr : List ℚ) : ℚ :=
  if arr.length = 0 then 0
  else
    let sorted := sortRatAsc arr
    let mid := arr.length / 2
    if arr.length % 2 = 0 then (sorted.getD (mid - 1) 0 + sorted.getD mid 0) / 2
    else sorted.getD mid 0

/-- Mean of a value list (`values.reduce((s,v) => s+v, 0) / values.length`). -/
def listMean (values : List ℚ) : ℚ := values.sum / values.length

/-- Population variance of a value list
(`values.reduce((s,v) => s + (v-mean)^2, 0) / values.length`). -/
def listVariance (values : List ℚ) : ℚ :=
  (values.map fun v => (v - listMean values) ^ 2).sum / values.length

-- ============================================================================
-- CONTROL-LIMIT CALCULATOR (`calculateXMRLimits`)
-- ============================================================================

/-- `calculateXMRLimits(data, useMedian)`. Series of length < 2 yield the
zero-filled default; otherwise the seven statistics are computed from the
mean (or median) of values and of moving ranges and rounded to 2 decimals. -/
def calculateXMRLimits (data : List DataPoint) (useMedian : Bool := false) :
    XMRLimits :=
  if data.length < 2 then
    { avgX := 0, avgMovement := 0, UNPL := 0, LNPL := 0, URL := 0,
      lowerQuartile := 0, upperQuartile := 0 }
  else
    let values := data.map (·.value)
    let ranges := calculateMovingRanges data
    let rangeValues := ranges.map (·.range)
    let avgX := if useMedian then calculateMedian values else listMean values
    let avgMovement :=
      if rangeValues.length > 0 then
        if useMedian then calculateMedian rangeValues else listMean rangeValues
      else 0
    let nplScaling := if useMedian then MEDIAN_NPL_SCALING else NPL_SCALING
    let urlScaling := if useMedian then MEDIAN_URL_SCALING else URL_SCALING
    let delta := nplScaling * avgMovement
    let UNPL := avgX + delta
    let LNPL := avgX - delta
    let URL := urlScaling * avgMovement
    let lowerQuartile := (LNPL + avgX) / 2
    let upperQuartile := (UNPL + avgX) / 2
    { avgX := roundToDecimalPrecision avgX,
      avgMovement := roundToDecimalPrecision avgMovement,
      UNPL := roundToDecimalPrecision UNPL,
      LNPL := roundToDecimalPrecision LNPL,
      URL := roundToDecimalPrecision URL,
      lowerQuartile := roundToDecimalPrecision lowerQuartile,
      upperQuartile := roundToDecimalPrecision upperQuartile }

end XmrCalc

namespace XmrCalc

-- ============================================================================
-- TREND LIMITS AND OPTIONAL-VALUE COMPARISON HELPERS
-- ============================================================================

/-- `TrendLimits` — nine per-index limit sequences. -/
structure TrendLimits where
  centreLine : List DataPoint
  unpl : List DataPoint
  lnpl : List DataPoint
  lowerQuartile : List DataPoint
  upperQuartile : List DataPoint
  reducedUnpl : List DataPoint
  reducedLnpl : List DataPoint
  reducedLowerQuartile : List DataPoint
  reducedUpperQuartile : List DataPoint
deriving DecidableEq, Repr

/-- `list[i]?.value` — optional chaining yields `undefined` past the end. -/
def trendValue (l : List DataPoint) (i : ℕ) : Option ℚ := (l[i]?).map (·.value)

/-- `v < b` where `b` may be `undefined`/`NaN` (then the comparison is false). -/
def ltOpt (v : ℚ) : Option ℚ → Bool
  | some b => decide (v < b)
  | none => false

/-- `v > b` where `b` may be `undefined`/`NaN` (then the comparison is false). -/
def gtOpt (v : ℚ) : Option ℚ → Bool
  | some b => decide (b < v)
  | none => false

/-- Fallback element for in-bounds list indexing inside the sliding-window
rules (every access in the source is within bounds, so it is never used). -/
def dummyPoint : MovingRangePoint := { timestamp := "", value := 0, range := 0 }

/-- `data[j].value` for a window index `j` (always in bounds in the source). -/
def valueAt (data : List MovingRangePoint) (j : ℕ) : ℚ :=
  (data.getD j dummyPoint).value

-- ============================================================================
-- VIOLATION DETECTOR (Western Electric rules, `detectViolations`)
-- ============================================================================

/-- Rule 1 (`checkOutsideLimits`): `value < LNPL_i || value > UNPL_i`,
with trend-indexed limits when a trend overlay is active. -/
def checkOutsideLimits (data : List MovingRangePoint) (limits : XMRLimits)
    (trendLimits : Option TrendLimits := none) : List ℕ :=
  data.enum.filterMap fun (index, point) =>
    let UNPL := match trendLimits with
      | some t => trendValue t.unpl index
      | none => some limits.UNPL
    let LNPL := match trendLimits with
      | some t => trendValue t.lnpl index
      | none => some limits.LNPL
    if ltOpt point.value LNPL || gtOpt point.value UNPL then some index else none

/-- Loop of Rule 2 (`checkRunningPoints`): two consecutive-run counters,
resetting on the other side or on the centre line, flagging every index at
which a counter reaches 8. -/
def runningPointsAux (cl : ℕ → Option ℚ) :
    List MovingRangePoint → ℕ → ℕ → ℕ → List ℕ
  | [], _, _, _ => []
  | point :: rest, index, consecutiveAbove, consecutiveBelow =>
    let c := cl index
    let ca := if gtOpt point.value c then consecutiveAbove + 1 else 0
    let cb := if ltOpt point.value c then consecutiveBelow + 1 else 0
    let tail := runningPointsAux cl rest (index + 1) ca cb
    if 8 ≤ ca ∨ 8 ≤ cb then index :: tail else tail

/-- The per-index centre line: trend-indexed when a trend overlay is active,
otherwise the static `avgX`. -/
def centreLineAt (limits : XMRLimits) (trendLimits : Option TrendLimits)
    (index : ℕ) : Option ℚ :=
  match trendLimits with
  | some t => trendValue t.centreLine index
  | none => some limits.avgX

/-- Rule 2 (`checkRunningPoints`): 8+ consecutive points strictly on one side
of the centre line. -/
def checkRunningPoints (data : List MovingRangePoint) (limits : XMRLimits)
    (trendLimits : Option TrendLimits := none) : List ℕ :=
  if data.length < 8 then []
  else runningPointsAux (centreLineAt limits trendLimits) data 0 0 0

/-- Rule 3 (`checkFourNearLimit`): sliding 4-point window; if 3 or more of
the window fall beyond the same extreme quartile, the whole window is added
(without duplicates). -/
def checkFourNearLimit (data : List MovingRangePoint) (limits : XMRLimits)
    (trendLimits : Option TrendLimits := none) : List ℕ :=
  if data.length < 4 then []
  else
    (List.range' 3 (data.length - 3)).foldl
      (fun violations i =>
        let window := [i - 3, i - 2, i - 1, i]
        let counts := window.foldl
          (fun (counts : ℕ × ℕ) j =>
            let upperQuartile := match trendLimits with
              | some t => trendValue t.upperQuartile j
              | none => some limits.upperQuartile
            let lowerQuartile := match trendLimits with
              | some t => trendValue t.lowerQuartile j
              | none => some limits.lowerQuartile
            if ltOpt (valueAt data j) lowerQuartile then
              (counts.1 + 1, counts.2)
            else if gtOpt (valueAt data j) upperQuartile then
              (counts.1, counts.2 + 1)
            else counts)
          (0, 0)
        if 3 ≤ counts.1 ∨ 3 ≤ counts.2 then
          window.foldl
            (fun acc j => if j ∈ acc then acc else acc ++ [j]) violations
        else violations)
      []

/-- The 2-sigma band edge `centre ± (limit - centre) * (2 / 2.66)`;
`undefined` at either input propagates as `NaN` (`none`). -/
def sigmaBound (centre limit : Option ℚ) (ratio : ℚ) (up : Bool) : Option ℚ :=
  match centre, limit with
  | some c, some l => some (if up then c + (l - c) * ratio else c - (c - l) * ratio)
  | _, _ => none

/-- Rule 4 (`checkTwoOfThreeBeyondTwoSigma`): sliding 3-point window; if 2 or
more exceed the 2-sigma band, the whole window is added (without duplicates). -/
def checkTwoOfThreeBeyondTwoSigma (data : List MovingRangePoint)
    (limits : XMRLimits) (trendLimits : Option TrendLimits := none) : List ℕ :=
  if data.length < 3 then []
  else
    let twoSigmaRatio : ℚ := 2 / NPL_SCALING
    (List.range' 2 (data.length - 2)).foldl
      (fun violations i =>
        let window := [i - 2, i - 1, i]
        let beyondTwoSigma := window.foldl
          (fun (beyond : ℕ) j =>
            let centerLine := centreLineAt limits trendLimits j
            let UNPL := match trendLimits with
              | some t => trendValue t.unpl j
              | none => some limits.UNPL
            let LNPL := match trendLimits with
              | some t => trendValue t.lnpl j
              | none => some limits.LNPL
            let upperTwoSigma := sigmaBound centerLine UNPL twoSigmaRatio true
            let lowerTwoSigma := sigmaBound centerLine LNPL twoSigmaRatio false
            if gtOpt (valueAt data j) upperTwoSigma ||
                ltOpt (valueAt data j) lowerTwoSigma then beyond + 1
            else beyond)
          0
        if 2 ≤ beyondTwoSigma then
          window.foldl
            (fun acc j => if j ∈ acc then acc else acc ++ [j]) violations
        else violations)
      []

/-- Loop of Rule 5: consecutive within-1-sigma counter, flagging indices at
which it reaches 15. -/
def fifteenAux (bounds : ℕ → Option ℚ × Option ℚ) :
    List MovingRangePoint → ℕ → ℕ → List ℕ
  | [], _, _ => []
  | point :: rest, index, consecutive =>
    let b := bounds index
    let within :=
      (match b.1 with
        | some lo => decide (lo ≤ point.value)
        | none => false) &&
      (match b.2 with
        | some hi => decide (point.value ≤ hi)
        | none => false)
    let c := if within then consecutive + 1 else 0
    let tail := fifteenAux bounds rest (index + 1) c
    if 15 ≤ c then index :: tail else tail

/-- Rule 5 (`checkFifteenWithinOneSigma`): 15+ consecutive points within the
1-sigma band around the centre line. -/
def checkFifteenWithinOneSigma (data : List MovingRangePoint)
    (limits : XMRLimits) (trendLimits : Option TrendLimits := none) : List ℕ :=
  if data.length < 15 then []
  else
    let oneSigmaRatio : ℚ := 1 / NPL_SCALING
    fifteenAux
      (fun index =>
        let centerLine := centreLineAt limits trendLimits index
        let UNPL := match trendLimits with
          | some t => trendValue t.unpl index
          | none => some limits.UNPL
        let LNPL := match trendLimits with
          | some t => trendValue t.lnpl index
          | none => some limits.LNPL
        (sigmaBound centerLine LNPL oneSigmaRatio false,
         sigmaBound centerLine UNPL oneSigmaRatio true))
      data 0 0

/-- The empty `ViolationDetails` record. -/
def emptyViolations : ViolationDetails :=
  { outsideLimits := [], runningPoints := [], fourNearLimit := [],
    twoOfThreeBeyondTwoSigma := [], fifteenWithinOneSigma := [] }

/-- `detectViolations(data, limits, trendLimits?)`: the five rules, each
trend-aware; empty input yields empty lists. -/
def detectViolations (data : List MovingRangePoint) (limits : XMRLimits)
    (trendLimits : Option TrendLimits := none) : ViolationDetails :=
  if data.length = 0 then emptyViolations
  else
    { outsideLimits := checkOutsideLimits data limits trendLimits,
      runningPoints := checkRunningPoints data limits trendLimits,
      fourNearLimit := checkFourNearLimit data limits trendLimits,
      twoOfThreeBeyondTwoSigma :=
        checkTwoOfThreeBeyondTwoSigma data limits trendLimits,
      fifteenWithinOneSigma :=
        checkFifteenWithinOneSigma data limits trendLimits }

end XmrCalc

namespace XmrCalc

-- ============================================================================
-- LOCKED LIMIT STATUS AND QUARTILE DISPLAY (`shouldUseQuartile`)
-- ============================================================================

-- `LockedLimitStatus` is a bitmask: LOCKED = 1, UNPL_MODIFIED = 2,
-- LNPL_MODIFIED = 4, AVGX_MODIFIED = 8; modelled as ℕ.
def LOCKED : ℕ := 1
def UNPL_MODIFIED : ℕ := 2
def LNPL_MODIFIED : ℕ := 4
def AVGX_MODIFIED : ℕ := 8

/-- `isAvgXModified(status)`. -/
def isAvgXModified (status : ℕ) : Bool := status &&& AVGX_MODIFIED == AVGX_MODIFIED

/-- `isUnplModified(status)`. -/
def isUnplModified (status : ℕ) : Bool := status &&& UNPL_MODIFIED == UNPL_MODIFIED

/-- `isLnplModified(status)`. -/
def isLnplModified (status : ℕ) : Bool := status &&& LNPL_MODIFIED == LNPL_MODIFIED

/-- The inner `isSymmetric` helper: `Math.abs(unpl + lnpl - 2*avg) < 0.001`. -/
def isSymmetric (avg unpl lnpl : ℚ) : Bool := |unpl + lnpl - 2 * avg| < 1/1000

/-- Result record of `shouldUseQuartile`. -/
structure QuartileUse where
  useUpperQuartile : Bool
  useLowerQuartile : Bool
deriving DecidableEq, Repr

/-- `shouldUseQuartile(status, limits)`. The guard `(status & ~1) === 0`
(status with the LOCKED bit cleared is zero) is `status - status % 2 = 0`. -/
def shouldUseQuartile (status : ℕ) (limits : XMRLimits) : QuartileUse :=
  if status - status % 2 = 0 then ⟨true, true⟩
  else if (isLnplModified status && isUnplModified status) ||
      isAvgXModified status then
    if isSymmetric limits.avgX limits.UNPL limits.LNPL then ⟨true, true⟩
    else ⟨false, false⟩
  else if isUnplModified status then ⟨false, true⟩
  else if isLnplModified status then ⟨true, false⟩
  else ⟨true, true⟩

-- ============================================================================
-- TREND ENGINE: LINEAR REGRESSION (`calculateLinearRegression`)
-- ============================================================================

/-- `calculateLinearRegression(data)`: ordinary least squares with the point
index as x; `null` for fewer than 2 points or a zero denominator. -/
def calculateLinearRegression (data : List DataPoint) : Option (ℚ × ℚ) :=
  if data.length < 2 then none
  else
    let n : ℚ := data.length
    let sumX := (data.enum.map fun p => ((p.1 : ℚ))).sum
    let sumY := (data.enum.map fun p => p.2.value).sum
    let sumXY := (data.enum.map fun p => (p.1 : ℚ) * p.2.value).sum
    let sumX2 := (data.enum.map fun p => (p.1 : ℚ) * (p.1 : ℚ)).sum
    let numerator := n * sumXY - sumX * sumY
    let denominator := n * sumX2 - sumX * sumX
    if denominator = 0 then none
    else
      let m := numerator / denominator
      some (m, (sumY - m * sumX) / n)

-- ============================================================================
-- RAW (UNROUNDED) XMR STATISTICS, for stating the rounding relation of the
-- control-limit calculator
-- ============================================================================

/-- The unrounded `avgX`: mean (or median) of the series' values. -/
def rawAvgX (data : List DataPoint) (useMedian : Bool) : ℚ :=
  if useMedian then calculateMedian (data.map (·.value))
  else listMean (data.map (·.value))

/-- The unrounded `avgMovement`: mean (or median) of the moving ranges. -/
def rawAvgMovement (data : List DataPoint) (useMedian : Bool) : ℚ :=
  let rangeValues := (calculateMovingRanges data).map (·.range)
  if useMedian then calculateMedian rangeValues else listMean rangeValues

/-- The per-mode scaling constant k: 2.66 (mean) or 3.145 (median). -/
def nplScalingOf (useMedian : Bool) : ℚ :=
  if useMedian then MEDIAN_NPL_SCALING else NPL_SCALING

/-- The per-mode scaling constant k2: 3.268 (mean) or 3.865 (median). -/
def urlScalingOf (useMedian : Bool) : ℚ :=
  if useMedian then MEDIAN_URL_SCALING else URL_SCALING

theorem length_calculateMovingRanges (data : List DataPoint)
    (h : 2 ≤ data.length) :
    (calculateMovingRanges data).length = data.length - 1 := by
  have h2 : ¬ data.length < 2 := by omega
  simp [calculateMovingRanges, h2, List.length_zip, List.length_tail]

-- ============================================================================
-- SUM-OF-INDICES LEMMAS, for the regression denominator
-- ============================================================================

theorem sum_map_cast_range (n : ℕ) :
    (((List.range n).map fun (i : ℕ) => (i : ℚ)).sum) = n * (n - 1) / 2 := by
  induction n with
  | zero => simp
  | succ m ih =>
    rw [List.range_succ, List.map_append, List.sum_append, ih]
    simp only [List.map_cons, List.map_nil, List.sum_cons, List.sum_nil]
    push_cast
    ring

theorem sum_map_cast_sq_range (n : ℕ) :
    (((List.range n).map fun (i : ℕ) => (i : ℚ) * (i : ℚ)).sum) =
      n * (n - 1) * (2 * n - 1) / 6 := by
  induction n with
  | zero => simp
  | succ m ih =>
    rw [List.range_succ, List.map_append, List.sum_append, ih]
    simp only [List.map_cons, List.map_nil, List.sum_cons, List.sum_nil]
    push_cast
    ring

theorem enum_map_cast_fst (data : List DataPoint) :
    (data.enum.map fun p => ((p.1 : ℚ))) =
      (List.range data.length).map fun (i : ℕ) => (i : ℚ) := by
  rw [← List.enum_map_fst data, List.map_map]
  rfl

theorem enum_map_cast_fst_sq (data : List DataPoint) :
    (data.enum.map fun p => ((p.1 : ℚ) * (p.1 : ℚ))) =
      (List.range data.length).map fun (i : ℕ) => (i : ℚ) * (i : ℚ) := by
  rw [← List.enum_map_fst data, List.map_map]
  rfl

end XmrCalc

namespace XmrCalc

-- ============================================================================
-- CLAIM C1 — control-limit field relations
-- ============================================================================

/-- Build a series from bare values (timestamps are irrelevant to the
control-limit calculator). -/
def mkSeries (vals : List ℚ) : List DataPoint :=
  vals.map fun v => { timestamp := "", value := v }

/-- The spec's Example 1 series. -/
def exC1 : List DataPoint := mkSeries [10, 12, 11, 13, 12, 14, 13, 15, 14, 16]

/-- C1, counterexample: on the series `[10,12,11,13,12,14,13,15,14,16]` in
mean mode the *returned, rounded* fields do not satisfy
`UNPL = avgX + 2.66 * avgMovement` (the returned `UNPL` is `17.14`, while
`avgX + 2.66 * avgMovement` over the returned fields is
`13 + 2.66 * 1.56 = 17.1496`): each returned field is the rounding of the
exact relation over the unrounded statistics, not a relation among the
rounded fields. -/
theorem claim_C1_counterexample :
    (calculateXMRLimits exC1 false).UNPL ≠
      (calculateXMRLimits exC1 false).avgX +
        NPL_SCALING * (calculateXMRLimits exC1 false).avgMovement := by
  with_unfolding_all decide

/-- C1 (amended): for every series of length ≥ 2 and either mode, the
returned `ControlLimits` fields are the 2-decimal roundings of the exact
relations `UNPL = avgX + k*avgMovement`, `LNPL = avgX - k*avgMovement`,
`URL = k2*avgMovement`, `lowerQuartile = (LNPL+avgX)/2`,
`upperQuartile = (UNPL+avgX)/2` evaluated on the *unrounded* `avgX` and
`avgMovement` (mean or median of values resp. moving ranges), with
(k, k2) = (2.66, 3.268) in mean mode and (3.145, 3.865) in median mode. -/
theorem claim_C1_limits_are_rounded_relations (data : List DataPoint)
    (useMedian : Bool) (h : 2 ≤ data.length) :
    calculateXMRLimits data useMedian =
      { avgX := roundToDecimalPrecision (rawAvgX data useMedian),
        avgMovement := roundToDecimalPrecision (rawAvgMovement data useMedian),
        UNPL := roundToDecimalPrecision
          (rawAvgX data useMedian +
            nplScalingOf useMedian * rawAvgMovement data useMedian),
        LNPL := roundToDecimalPrecision
          (rawAvgX data useMedian -
            nplScalingOf useMedian * rawAvgMovement data useMedian),
        URL := roundToDecimalPrecision
          (urlScalingOf useMedian * rawAvgMovement data useMedian),
        lowerQuartile := roundToDecimalPrecision
          ((rawAvgX data useMedian -
              nplScalingOf useMedian * rawAvgMovement data useMedian +
            rawAvgX data useMedian) / 2),
        upperQuartile := roundToDecimalPrecision
          ((rawAvgX data useMedian +
              nplScalingOf useMedian * rawAvgMovement data useMedian +
            rawAvgX data useMedian) / 2) } := by
  have h2 : ¬ data.length < 2 := by omega
  have h3 : 0 < ((calculateMovingRanges data).map (·.range)).length := by
    rw [List.length_map, length_calculateMovingRanges data h]
    omega
  simp only [calculateXMRLimits, h2, if_false, rawAvgX, rawAvgMovement,
    nplScalingOf, urlScalingOf, h3, if_true, gt_iff_lt]

/-- C1, witness for the amended theorem at the Example 1 series. -/
theorem claim_C1_witness :
    2 ≤ exC1.length ∧
      calculateXMRLimits exC1 false =
        { avgX := roundToDecimalPrecision (rawAvgX exC1 false),
          avgMovement := roundToDecimalPrecision (rawAvgMovement exC1 false),
          UNPL := roundToDecimalPrecision
            (rawAvgX exC1 false + nplScalingOf false * rawAvgMovement exC1 false),
          LNPL := roundToDecimalPrecision
            (rawAvgX exC1 false - nplScalingOf false * rawAvgMovement exC1 false),
          URL := roundToDecimalPrecision
            (urlScalingOf false * rawAvgMovement exC1 false),
          lowerQuartile := roundToDecimalPrecision
            ((rawAvgX exC1 false - nplScalingOf false * rawAvgMovement exC1 false +
              rawAvgX exC1 false) / 2),
          upperQuartile := roundToDecimalPrecision
            ((rawAvgX exC1 false + nplScalingOf false * rawAvgMovement exC1 false +
              rawAvgX exC1 false) / 2) } :=
  ⟨by decide, claim_C1_limits_are_rounded_relations exC1 false (by decide)⟩

-- ============================================================================
-- CLAIM C7 — short series yield the zero-filled default
-- ============================================================================

/-- C7 (confirmed): for every series of length < 2 and either mode,
`calculateXMRLimits` returns the zero-filled default `ControlLimits`
(no failure path exists: the function is total). -/
theorem claim_C7_short_series_default (data : List DataPoint)
    (useMedian : Bool) (h : data.length < 2) :
    calculateXMRLimits data useMedian =
      { avgX := 0, avgMovement := 0, UNPL := 0, LNPL := 0, URL := 0,
        lowerQuartile := 0, upperQuartile := 0 } := by
  simp [calculateXMRLimits, h]

/-- C7, witness at the empty series. -/
theorem claim_C7_witness :
    ([] : List DataPoint).length < 2 ∧
      calculateXMRLimits [] true =
        { avgX := 0, avgMovement := 0, UNPL := 0, LNPL := 0, URL := 0,
          lowerQuartile := 0, upperQuartile := 0 } :=
  ⟨by decide, claim_C7_short_series_default [] true (by decide)⟩

-- ============================================================================
-- CLAIM C9 — the regression's zero-denominator branch is unreachable
-- ============================================================================

/-- C9 (confirmed): `calculateLinearRegression` returns `null` exactly for
series of fewer than 2 points; for length ≥ 2 the zero-denominator branch is
unreachable (the x-values are the indices `0..n-1`, whose variance
`n·Σi² - (Σi)² = n²(n-1)(n+1)/12` is positive), so `{m, c}` is returned. -/
theorem claim_C9_regression_none_iff (data : List DataPoint) :
    calculateLinearRegression data = none ↔ data.length < 2 := by
  by_cases h : data.length < 2
  · simp [calculateLinearRegression, h]
  · have h2 : (2 : ℕ) ≤ data.length := by omega
    have hden :
        (data.length : ℚ) *
            ((data.enum.map fun p => (p.1 : ℚ) * (p.1 : ℚ)).sum) -
          ((data.enum.map fun p => ((p.1 : ℚ))).sum) *
            ((data.enum.map fun p => ((p.1 : ℚ))).sum) ≠ 0 := by
      rw [enum_map_cast_fst, enum_map_cast_fst_sq, sum_map_cast_range,
        sum_map_cast_sq_range]
      have hn : (2 : ℚ) ≤ (data.length : ℚ) := by exact_mod_cast h2
      set x : ℚ := (data.length : ℚ) with hx
      have hrw : x * (x * (x - 1) * (2 * x - 1) / 6) -
          x * (x - 1) / 2 * (x * (x - 1) / 2) =
          x * x * (x - 1) * (x + 1) / 12 := by ring
      rw [hrw]
      have hx0 : 0 < x := by linarith
      have hx1 : 0 < x - 1 := by linarith
      have hx3 : 0 < x + 1 := by linarith
      have hpos : 0 < x * x * (x - 1) * (x + 1) / 12 := by
        have := mul_pos (mul_pos (mul_pos hx0 hx0) hx1) hx3
        linarith
      exact ne_of_gt hpos
    simp [calculateLinearRegression, h, hden]

end XmrCalc

namespace XmrCalc

-- ============================================================================
-- CLAIM C2 — Rule 2 (running points) characterisation
-- ============================================================================

/-- The point at index `j` lies strictly above the centre line `c`. -/
def strictlyAbove (data : List MovingRangePoint) (c : ℚ) (j : ℕ) : Bool :=
  match data[j]? with
  | some p => decide (c < p.value)
  | none => false

/-- The point at index `j` lies strictly below the centre line `c`. -/
def strictlyBelow (data : List MovingRangePoint) (c : ℚ) (j : ℕ) : Bool :=
  match data[j]? with
  | some p => decide (p.value < c)
  | none => false

/-- Length of the maximal run of strictly-above points ending at index `i`. -/
def runAboveEnd (data : List MovingRangePoint) (c : ℚ) : ℕ → ℕ
  | 0 => if strictlyAbove data c 0 then 1 else 0
  | i + 1 => if strictlyAbove data c (i + 1) then runAboveEnd data c i + 1 else 0

/-- Length of the maximal run of strictly-below points ending at index `i`. -/
def runBelowEnd (data : List MovingRangePoint) (c : ℚ) : ℕ → ℕ
  | 0 => if strictlyBelow data c 0 then 1 else 0
  | i + 1 => if strictlyBelow data c (i + 1) then runBelowEnd data c i + 1 else 0

/-- The 8 consecutive points ending at index `i` all lie strictly above `c`. -/
def windowAbove (data : List MovingRangePoint) (c : ℚ) (i : ℕ) : Bool :=
  (List.range 8).all fun k => strictlyAbove data c (i - k)

/-- The 8 consecutive points ending at index `i` all lie strictly below `c`. -/
def windowBelow (data : List MovingRangePoint) (c : ℚ) (i : ℕ) : Bool :=
  (List.range 8).all fun k => strictlyBelow data c (i - k)

theorem runAboveEnd_le (data : List MovingRangePoint) (c : ℚ) (i : ℕ) :
    runAboveEnd data c i ≤ i + 1 := by
  induction i with
  | zero => simp only [runAboveEnd]; split <;> omega
  | succ j ih => simp only [runAboveEnd]; split <;> omega

theorem runBelowEnd_le (data : List MovingRangePoint) (c : ℚ) (i : ℕ) :
    runBelowEnd data c i ≤ i + 1 := by
  induction i with
  | zero => simp only [runBelowEnd]; split <;> omega
  | succ j ih => simp only [runBelowEnd]; split <;> omega

theorem le_runAboveEnd_iff (data : List MovingRangePoint) (c : ℚ) (i : ℕ) :
    ∀ m, m ≤ runAboveEnd data c i ↔
      (m ≤ i + 1 ∧ ∀ k, k < m → strictlyAbove data c (i - k) = true) := by
  induction i with
  | zero =>
    intro m
    cases m with
    | zero => simp
    | succ m' =>
      simp only [runAboveEnd]
      by_cases h : strictlyAbove data c 0 = true
      · simp only [h, if_true]
        constructor
        · intro hm
          exact ⟨by omega, fun k _ => by simpa using h⟩
        · rintro ⟨h1, _⟩; omega
      · rw [if_neg h]
        constructor
        · intro hm; omega
        · rintro ⟨h1, h2⟩
          have := h2 0 (by omega)
          simp only [Nat.sub_zero] at this
          exact absurd this h
  | succ j ih =>
    intro m
    cases m with
    | zero => simp
    | succ m' =>
      simp only [runAboveEnd]
      by_cases h : strictlyAbove data c (j + 1) = true
      · simp only [h, if_true]
        rw [Nat.succ_le_succ_iff, ih m']
        constructor
        · rintro ⟨h1, h2⟩
          refine ⟨by omega, fun k hk => ?_⟩
          cases k with
          | zero => simpa using h
          | succ k' =>
            have : j + 1 - (k' + 1) = j - k' := by omega
            rw [this]
            exact h2 k' (by omega)
        · rintro ⟨h1, h2⟩
          refine ⟨by omega, fun k hk => ?_⟩
          have := h2 (k + 1) (by omega)
          have heq : j + 1 - (k + 1) = j - k := by omega
          rwa [heq] at this
      · rw [if_neg (by simpa using h)]
        constructor
        · intro hm; omega
        · rintro ⟨h1, h2⟩
          have := h2 0 (by omega)
          simp only [Nat.sub_zero] at this
          exact absurd this h

theorem le_runBelowEnd_iff (data : List MovingRangePoint) (c : ℚ) (i : ℕ) :
    ∀ m, m ≤ runBelowEnd data c i ↔
      (m ≤ i + 1 ∧ ∀ k, k < m → strictlyBelow data c (i - k) = true) := by
  induction i with
  | zero =>
    intro m
    cases m with
    | zero => simp
    | succ m' =>
      simp only [runBelowEnd]
      by_cases h : strictlyBelow data c 0 = true
      · simp only [h, if_true]
        constructor
        · intro hm
          exact ⟨by omega, fun k _ => by simpa using h⟩
        · rintro ⟨h1, _⟩; omega
      · rw [if_neg h]
        constructor
        · intro hm; omega
        · rintro ⟨h1, h2⟩
          have := h2 0 (by omega)
          simp only [Nat.sub_zero] at this
          exact absurd this h
  | succ j ih =>
    intro m
    cases m with
    | zero => simp
    | succ m' =>
      simp only [runBelowEnd]
      by_cases h : strictlyBelow data c (j + 1) = true
      · simp only [h, if_true]
        rw [Nat.succ_le_succ_iff, ih m']
        constructor
        · rintro ⟨h1, h2⟩
          refine ⟨by omega, fun k hk => ?_⟩
          cases k with
          | zero => simpa using h
          | succ k' =>
            have : j + 1 - (k' + 1) = j - k' := by omega
            rw [this]
            exact h2 k' (by omega)
        · rintro ⟨h1, h2⟩
          refine ⟨by omega, fun k hk => ?_⟩
          have := h2 (k + 1) (by omega)
          have heq : j + 1 - (k + 1) = j - k := by omega
          rwa [heq] at this
      · rw [if_neg (by simpa using h)]
        constructor
        · intro hm; omega
        · rintro ⟨h1, h2⟩
          have := h2 0 (by omega)
          simp only [Nat.sub_zero] at this
          exact absurd this h

end XmrCalc

namespace XmrCalc

theorem runningPointsAux_mem (data : List MovingRangePoint) (c : ℚ) :
    ∀ (l : List MovingRangePoint) (idx ca cb : ℕ),
      data.drop idx = l →
      (ca = if idx = 0 then 0 else runAboveEnd data c (idx - 1)) →
      (cb = if idx = 0 then 0 else runBelowEnd data c (idx - 1)) →
      ∀ i, i ∈ runningPointsAux (fun _ => some c) l idx ca cb ↔
        (idx ≤ i ∧ i < data.length ∧
          (8 ≤ runAboveEnd data c i ∨ 8 ≤ runBelowEnd data c i)) := by
  intro l
  induction l with
  | nil =>
    intro idx ca cb hdrop hca hcb i
    simp only [runningPointsAux, List.not_mem_nil, false_iff]
    have hlen : data.length ≤ idx := List.drop_eq_nil_iff.mp hdrop
    rintro ⟨h1, h2, _⟩
    omega
  | cons p rest ih =>
    intro idx ca cb hdrop hca hcb i
    have hget : data[idx]? = some p := by
      have h0 := List.getElem?_drop data idx 0
      rw [hdrop] at h0
      simpa using h0.symm
    have hlt : idx < data.length := by
      by_contra hc
      rw [List.getElem?_eq_none (by omega)] at hget
      exact Option.noConfusion hget
    have hrest : data.drop (idx + 1) = rest := by
      have h1 : List.drop 1 (List.drop idx data) = List.drop (idx + 1) data :=
        List.drop_drop 1 idx data
      rw [hdrop] at h1
      simpa using h1.symm
    have habove : strictlyAbove data c idx = decide (c < p.value) := by
      simp [strictlyAbove, hget]
    have hbelow : strictlyBelow data c idx = decide (p.value < c) := by
      simp [strictlyBelow, hget]
    have hca' : (if gtOpt p.value (some c) then ca + 1 else 0) =
        runAboveEnd data c idx := by
      cases idx with
      | zero =>
        have hca0 : ca = 0 := by simpa using hca
        subst hca0
        simp [runAboveEnd, habove, gtOpt]
      | succ j =>
        have hca0 : ca = runAboveEnd data c j := by simpa using hca
        subst hca0
        simp [runAboveEnd, habove, gtOpt]
    have hcb' : (if ltOpt p.value (some c) then cb + 1 else 0) =
        runBelowEnd data c idx := by
      cases idx with
      | zero =>
        have hcb0 : cb = 0 := by simpa using hcb
        subst hcb0
        simp [runBelowEnd, hbelow, ltOpt]
      | succ j =>
        have hcb0 : cb = runBelowEnd data c j := by simpa using hcb
        subst hcb0
        simp [runBelowEnd, hbelow, ltOpt]
    have htail := ih (idx + 1)
      (if gtOpt p.value (some c) then ca + 1 else 0)
      (if ltOpt p.value (some c) then cb + 1 else 0)
      hrest
      (by simp only [Nat.succ_ne_zero, if_false, Nat.add_sub_cancel, hca'])
      (by simp only [Nat.succ_ne_zero, if_false, Nat.add_sub_cancel, hcb'])
    simp only [runningPointsAux]
    rw [hca', hcb'] at htail ⊢
    by_cases hflag : 8 ≤ runAboveEnd data c idx ∨ 8 ≤ runBelowEnd data c idx
    · rw [if_pos hflag]
      constructor
      · intro hmem
        rcases List.mem_cons.mp hmem with rfl | hmem
        · exact ⟨le_refl _, hlt, hflag⟩
        · have := (htail i).mp hmem
          exact ⟨by omega, this.2.1, this.2.2⟩
      · rintro ⟨h1, h2, h3⟩
        by_cases hi : i = idx
        · subst hi; exact List.mem_cons_self _ _
        · exact List.mem_cons_of_mem _ ((htail i).mpr ⟨by omega, h2, h3⟩)
    · rw [if_neg hflag, htail i]
      constructor
      · rintro ⟨h1, h2, h3⟩
        exact ⟨by omega, h2, h3⟩
      · rintro ⟨h1, h2, h3⟩
        rcases Nat.eq_or_lt_of_le h1 with hi | hi
        · exact absurd h3 (hi ▸ hflag)
        · exact ⟨hi, h2, h3⟩

theorem checkRunningPoints_mem (data : List MovingRangePoint)
    (limits : XMRLimits) (i : ℕ) :
    i ∈ checkRunningPoints data limits none ↔
      (i < data.length ∧
        (8 ≤ runAboveEnd data limits.avgX i ∨
          8 ≤ runBelowEnd data limits.avgX i)) := by
  by_cases hlen : data.length < 8
  · simp only [checkRunningPoints, hlen, if_pos, List.not_mem_nil, false_iff]
    rintro ⟨h1, h2⟩
    rcases h2 with h2 | h2
    · have := runAboveEnd_le data limits.avgX i
      omega
    · have := runBelowEnd_le data limits.avgX i
      omega
  · have hmain := runningPointsAux_mem data limits.avgX data 0 0 0
      (by simp) (by simp) (by simp) i
    simp only [checkRunningPoints, hlen, if_false]
    have hcl : centreLineAt limits none = fun _ => some limits.avgX := rfl
    rw [hcl, hmain]
    constructor
    · rintro ⟨_, h2, h3⟩; exact ⟨h2, h3⟩
    · rintro ⟨h2, h3⟩; exact ⟨Nat.zero_le _, h2, h3⟩

theorem detectViolations_runningPoints (data : List MovingRangePoint)
    (limits : XMRLimits) :
    (detectViolations data limits none).runningPoints =
      checkRunningPoints data limits none := by
  by_cases h : data.length = 0
  · rcases List.length_eq_zero.mp h with rfl
    simp [detectViolations, emptyViolations, checkRunningPoints, runningPointsAux]
  · simp [detectViolations, h]

/-- C2 (amended): Rule 2 of `detectViolations` flags exactly the indices `i`
at which the run of consecutive points strictly on one side of the centre
line has reached length 8 — i.e. `i` is the 8th or a later point of a run
(the 8 points ending at `i` all lie strictly on the same side). The first
seven points of a qualifying run are *not* flagged. -/
theorem claim_C2_runningPoints_characterisation
    (data : List MovingRangePoint) (limits : XMRLimits) (i : ℕ) :
    i ∈ (detectViolations data limits none).runningPoints ↔
      (7 ≤ i ∧ i < data.length ∧
        (windowAbove data limits.avgX i = true ∨
          windowBelow data limits.avgX i = true)) := by
  rw [detectViolations_runningPoints, checkRunningPoints_mem]
  have ha := le_runAboveEnd_iff data limits.avgX i 8
  have hb := le_runBelowEnd_iff data limits.avgX i 8
  have hwa : windowAbove data limits.avgX i = true ↔
      ∀ k, k < 8 → strictlyAbove data limits.avgX (i - k) = true := by
    simp [windowAbove, List.all_eq_true]
  have hwb : windowBelow data limits.avgX i = true ↔
      ∀ k, k < 8 → strictlyBelow data limits.avgX (i - k) = true := by
    simp [windowBelow, List.all_eq_true]
  constructor
  · rintro ⟨h1, h2 | h2⟩
    · rcases ha.mp h2 with ⟨h3, h4⟩
      exact ⟨by omega, h1, Or.inl (hwa.mpr h4)⟩
    · rcases hb.mp h2 with ⟨h3, h4⟩
      exact ⟨by omega, h1, Or.inr (hwb.mpr h4)⟩
  · rintro ⟨h1, h2, h3 | h3⟩
    · exact ⟨h2, Or.inl (ha.mpr ⟨by omega, hwa.mp h3⟩)⟩
    · exact ⟨h2, Or.inr (hb.mpr ⟨by omega, hwb.mp h3⟩)⟩

/-- An 8-point series entirely strictly above the centre line 0. -/
def exC2 : List MovingRangePoint :=
  (List.range 8).map fun _ => { timestamp := "", value := 1, range := 0 }

/-- All-zero limits (centre line 0) for the C2 counterexample. -/
def limitsC2 : XMRLimits :=
  { avgX := 0, avgMovement := 0, UNPL := 0, LNPL := 0, URL := 0,
    lowerQuartile := 0, upperQuartile := 0 }

/-- C2, counterexample: eight consecutive points strictly above the centre
line form a qualifying run of length 8, but Rule 2 flags only its 8th point
(index 7): the claim's "every point in the qualifying run is flagged" fails
for indices 0–6. -/
theorem claim_C2_counterexample :
    exC2.all (fun p => limitsC2.avgX < p.value) = true ∧
      exC2.length = 8 ∧
      (detectViolations exC2 limitsC2 none).runningPoints = [7] := by
  refine ⟨by with_unfolding_all decide, by with_unfolding_all decide, ?_⟩
  with_unfolding_all decide

end XmrCalc

namespace XmrCalc

-- ============================================================================
-- CLAIM C6 — quartile symmetry
-- ============================================================================

/-- At least one of the three modification flags is set. -/
def anyModificationFlag (status : ℕ) : Bool :=
  isUnplModified status || isLnplModified status || isAvgXModified status

/-- Exactly one of UNPL_MODIFIED / LNPL_MODIFIED is set, without
AVGX_MODIFIED — the statuses the counterexample exhibits, which the
amended symmetry claim must exclude. -/
def exactlyOneLimitModified (status : ℕ) : Bool :=
  (isUnplModified status && !isLnplModified status && !isAvgXModified status) ||
  (isLnplModified status && !isUnplModified status && !isAvgXModified status)

/-- C6, counterexample: with exactly symmetric limits
(`|12 + 8 - 2*10| = 0 < 0.001`) but a status having only `UNPL_MODIFIED`
set, `shouldUseQuartile` suppresses the upper quartile, refuting
"if the symmetry bound holds then both quartile lines are displayable". -/
theorem claim_C6_counterexample :
    isSymmetric (10 : ℚ) 12 8 = true ∧
      (shouldUseQuartile UNPL_MODIFIED
        { avgX := 10, avgMovement := 1, UNPL := 12, LNPL := 8, URL := 3,
          lowerQuartile := 9, upperQuartile := 11 }).useUpperQuartile =
        false := by
  with_unfolding_all decide

/-- C6 (amended): if the symmetry bound `|UNPL + LNPL - 2*avgX| < 0.001`
holds and the status does not have exactly one of UNPL_MODIFIED /
LNPL_MODIFIED set (without AVGX_MODIFIED), both quartile lines are
displayable.  If the symmetry bound fails and any modification flag is
set, at least one quartile is suppressed. -/
theorem claim_C6_quartile_symmetry (status : ℕ) (limits : XMRLimits) :
    (isSymmetric limits.avgX limits.UNPL limits.LNPL = true →
      exactlyOneLimitModified status = false →
      shouldUseQuartile status limits =
        { useUpperQuartile := true, useLowerQuartile := true }) ∧
    (isSymmetric limits.avgX limits.UNPL limits.LNPL = false →
      anyModificationFlag status = true →
      ((shouldUseQuartile status limits).useUpperQuartile = false ∨
        (shouldUseQuartile status limits).useLowerQuartile = false)) := by
  by_cases hg : status - status % 2 = 0
  · have hs : status ≤ 1 := by omega
    have hflags : anyModificationFlag status = false := by
      interval_cases status <;> decide
    constructor
    · intro _ _
      simp [shouldUseQuartile, hg]
    · intro _ hany
      rw [hflags] at hany
      exact absurd hany (by simp)
  · constructor
    · intro hsym hone
      by_cases hb2 : ((isLnplModified status && isUnplModified status) ||
          isAvgXModified status) = true
      · simp [shouldUseQuartile, hg, hb2, hsym]
      · by_cases hu : isUnplModified status = true
        · exfalso
          have hl : isLnplModified status = false := by
            cases h : isLnplModified status
            · rfl
            · exact absurd (by simp [h, hu]) hb2
          have hax : isAvgXModified status = false := by
            cases h : isAvgXModified status
            · rfl
            · exact absurd (by simp [h]) hb2
          rw [exactlyOneLimitModified, hu, hl, hax] at hone
          simp at hone
        · by_cases hl : isLnplModified status = true
          · exfalso
            have hax : isAvgXModified status = false := by
              cases h : isAvgXModified status
              · rfl
              · exact absurd (by simp [h]) hb2
            have hu' : isUnplModified status = false := by
              cases h : isUnplModified status
              · rfl
              · exact absurd h hu
            rw [exactlyOneLimitModified, hu', hl, hax] at hone
            simp at hone
          · have hax : isAvgXModified status = false := by
              cases h : isAvgXModified status
              · rfl
              · exact absurd (by simp [h]) hb2
            simp [shouldUseQuartile, hg, hu, hl, hax]
    · intro hsym hany
      by_cases hb2 : ((isLnplModified status && isUnplModified status) ||
          isAvgXModified status) = true
      · left
        simp [shouldUseQuartile, hg, hb2, hsym]
      · by_cases hu : isUnplModified status = true
        · left
          have hl' : isLnplModified status = false := by
            cases h : isLnplModified status
            · rfl
            · exact absurd (by simp [h, hu]) hb2
          have hax : isAvgXModified status = false := by
            cases h : isAvgXModified status
            · rfl
            · exact absurd (by simp [h]) hb2
          simp [shouldUseQuartile, hg, hu, hl', hax]
        · by_cases hl : isLnplModified status = true
          · right
            have hax : isAvgXModified status = false := by
              cases h : isAvgXModified status
              · rfl
              · exact absurd (by simp [h]) hb2
            simp [shouldUseQuartile, hg, hu, hl, hax]
          · exfalso
            have hax : isAvgXModified status = false := by
              cases h : isAvgXModified status
              · rfl
              · exact absurd (by simp [h]) hb2
            have hu' : isUnplModified status = false := by
              cases h : isUnplModified status
              · rfl
              · exact absurd h hu
            have hl' : isLnplModified status = false := by
              cases h : isLnplModified status
              · rfl
              · exact absurd h hl
            rw [anyModificationFlag, hu', hl', hax] at hany
            simp at hany

/-- Asymmetric limits (`|13 + 8 - 2*10| = 1 ≥ 0.001`) for the C6 witness. -/
def limitsC6asym : XMRLimits :=
  { avgX := 10, avgMovement := 1, UNPL := 13, LNPL := 8, URL := 3,
    lowerQuartile := 9, upperQuartile := 11 }

/-- Symmetric limits for the C6 witness. -/
def limitsC6sym : XMRLimits :=
  { avgX := 10, avgMovement := 1, UNPL := 12, LNPL := 8, URL := 3,
    lowerQuartile := 9, upperQuartile := 11 }

/-- C6, witness: both parts of the amended theorem at concrete inputs
(status 7 = LOCKED + both limits modified with symmetric limits; status 3 =
LOCKED + UNPL_MODIFIED with asymmetric limits). -/
theorem claim_C6_witness :
    shouldUseQuartile 7 limitsC6sym =
        { useUpperQuartile := true, useLowerQuartile := true } ∧
      ((shouldUseQuartile 3 limitsC6asym).useUpperQuartile = false ∨
        (shouldUseQuartile 3 limitsC6asym).useLowerQuartile = false) :=
  ⟨(claim_C6_quartile_symmetry 7 limitsC6sym).1
      (by with_unfolding_all decide) (by decide),
    (claim_C6_quartile_symmetry 3 limitsC6asym).2
      (by with_unfolding_all decide) (by decide)⟩

end XmrCalc

namespace XmrCalc

-- ============================================================================
-- OUTLIER CONSENSUS ENGINE (`removeOutliersFromData` and its detectors)
-- ============================================================================

-- `OUTLIER_DETECTION` constants.
def MIN_DATA_POINTS : ℕ := 6
def IQR_MULTIPLIER_AGGRESSIVE : ℚ := 1
def IQR_MULTIPLIER_MODERATE : ℚ := 12/10
def IQR_MULTIPLIER_CONSERVATIVE : ℚ := 15/10
def ZSCORE_THRESHOLD : ℚ := 18/10
def ZSCORE_STRICT_THRESHOLD : ℚ := 22/10
def PERCENTILE_THRESHOLD : ℚ := 8/100
def MAD_MULTIPLIER : ℚ := 22/10
def MAX_OUTLIER_PERCENTAGE : ℚ := 25/100
def VARIATION_THRESHOLD : ℚ := 1/1000

/-- The `iqrMultiplier` selected by `analyzeDataDistribution` (the only field
of its result that `detectOutliersIQR` destructures).  The branch
`cv < t` with `cv = stdDev / |mean|` (0 when `mean = 0`) is algebraized as
`mean = 0 ∨ variance < t² · mean²`, since `stdDev = √variance` and squaring
is strictly monotone on nonnegatives. -/
def analyzeIqrMultiplier (values : List ℚ) : ℚ :=
  if values.length = 0 then IQR_MULTIPLIER_CONSERVATIVE
  else
    let mean := listMean values
    let variance := listVariance values
    if mean = 0 ∨ variance < (1/100) * mean ^ 2 then IQR_MULTIPLIER_AGGRESSIVE
    else if variance < (9/100) * mean ^ 2 then IQR_MULTIPLIER_MODERATE
    else IQR_MULTIPLIER_CONSERVATIVE

/-- `detectOutliersIQR(values)`: nearest-rank quartiles with adaptive
multiplier; degenerate IQR = 0 falls back to percentage deviation from the
median. -/
def detectOutliersIQR (values : List ℚ) : List ℕ :=
  if values.length < MIN_DATA_POINTS then []
  else
    let sorted := sortRatAsc values
    let q1Index := Nat.floor ((values.length : ℚ) * (25/100))
    let q3Index := Nat.floor ((values.length : ℚ) * (75/100))
    let q1 := sorted.getD q1Index 0
    let q3 := sorted.getD q3Index 0
    let iqr := q3 - q1
    if iqr = 0 then
      let median := calculateMedian values
      values.enum.filterMap fun (index, value) =>
        if |value - median| / max |median| 1 > VARIATION_THRESHOLD ∧
            value ≠ median then some index
        else none
    else
      let iqrMultiplier := analyzeIqrMultiplier values
      let lowerBound := q1 - iqrMultiplier * iqr
      let upperBound := q3 + iqrMultiplier * iqr
      values.enum.filterMap fun (index, value) =>
        if value < lowerBound ∨ value > upperBound then some index else none

/-- `detectOutliersZScore(values, threshold)`: flags
`|value - mean| / stdDev > threshold`, algebraized as
`(value - mean)² > threshold² · variance`; `stdDev = 0` yields no outliers. -/
def detectOutliersZScore (values : List ℚ)
    (threshold : ℚ := ZSCORE_THRESHOLD) : List ℕ :=
  if values.length < MIN_DATA_POINTS then []
  else
    let mean := listMean values
    let variance := listVariance values
    if variance = 0 then []
    else
      values.enum.filterMap fun (index, value) =>
        if (value - mean) ^ 2 > threshold ^ 2 * variance then some index
        else none

/-- `detectOutliersMAD(values)`: modified z-score
`0.6745 (value - median) / MAD` against threshold 2.2; MAD = 0 yields no
outliers. -/
def detectOutliersMAD (values : List ℚ) : List ℕ :=
  if values.length < MIN_DATA_POINTS then []
  else
    let median := calculateMedian values
    let absoluteDeviations := values.map fun v => |v - median|
    let mad := calculateMedian absoluteDeviations
    if mad = 0 then []
    else
      values.enum.filterMap fun (index, value) =>
        if |(6745/10000 : ℚ) * (value - median) / mad| > MAD_MULTIPLIER then
          some index
        else none

/-- `detectOutliersPercentile(values)`: flags values outside the
nearest-rank `[8th, 92nd]` percentile band. -/
def detectOutliersPercentile (values : List ℚ) : List ℕ :=
  if values.length < MIN_DATA_POINTS then []
  else
    let sorted := sortRatAsc values
    let lowerIndex := Nat.floor ((values.length : ℚ) * PERCENTILE_THRESHOLD)
    let upperIndex := Nat.floor ((values.length : ℚ) * (1 - PERCENTILE_THRESHOLD))
    let lowerThreshold := sorted.getD lowerIndex 0
    let upperThreshold := sorted.getD upperIndex 0
    values.enum.filterMap fun (index, value) =>
      if value < lowerThreshold ∨ value > upperThreshold then some index
      else none

/-- First-occurrence deduplication with an accumulator of already-seen keys:
the key order of the JavaScript `Map` populated by iterating the four
detector outputs. -/
def dedupFirstAux (seen : List ℕ) : List ℕ → List ℕ
  | [] => []
  | x :: xs =>
    if x ∈ seen then dedupFirstAux seen xs
    else x :: dedupFirstAux (x :: seen) xs

/-- Keys of `candidateOutliers` in `Map` insertion order. -/
def dedupFirst (l : List ℕ) : List ℕ := dedupFirstAux [] l

/-- Number of the four detector outputs containing index `i` (the `Map`
value after the counting loop). -/
def methodCountOf (iqr zs mad pct : List ℕ) (i : ℕ) : ℕ :=
  (if i ∈ iqr then 1 else 0) + (if i ∈ zs then 1 else 0) +
    (if i ∈ mad then 1 else 0) + (if i ∈ pct then 1 else 0)

/-- One entry of `sortedCandidates`: index, method-agreement count, and the
squared deviation `(value - mean)²` when `variance > 0` (0 otherwise) — a
strictly-monotone stand-in for the z-score that preserves its order, ties
and thresholds. -/
structure Candidate where
  index : ℕ
  methodCount : ℕ
  zsq : ℚ
deriving DecidableEq, Repr

/-- The sort comparator `(a, b) => b.methodCount - a.methodCount` then
`b.zScore - a.zScore`, as a total boolean preorder (`a` may come before
`b`). -/
def candLe (a b : Candidate) : Bool :=
  decide (b.methodCount < a.methodCount) ||
    (a.methodCount == b.methodCount && decide (b.zsq ≤ a.zsq))

/-- The candidate records built from the union of the four detectors'
outputs, in `Map` insertion order. -/
def outlierConsensusCandidates (values : List ℚ) : List Candidate :=
  let iqrOutliers := detectOutliersIQR values
  let zScoreOutliers := detectOutliersZScore values
  let madOutliers := detectOutliersMAD values
  let percentileOutliers := detectOutliersPercentile values
  let candidateKeys := dedupFirst
    (iqrOutliers ++ zScoreOutliers ++ madOutliers ++ percentileOutliers)
  let mean := listMean values
  let variance := listVariance values
  candidateKeys.map fun i =>
    { index := i,
      methodCount := methodCountOf iqrOutliers zScoreOutliers madOutliers
        percentileOutliers i,
      zsq := if 0 < variance then (values.getD i 0 - mean) ^ 2 else 0 }

/-- `sortedCandidates`: accept candidates flagged by ≥ 2 methods, or by ≥ 1
method with z-score above 3 (`zsq > 9 · variance`), sorted by method count
then z-score, both descending (stable). -/
def outlierSortedCandidates (values : List ℚ) : List Candidate :=
  insSortBy candLe
    ((outlierConsensusCandidates values).filter fun c =>
      decide (2 ≤ c.methodCount ∨
        (1 ≤ c.methodCount ∧ 9 * listVariance values < c.zsq)))

/-- `finalOutlierIndices` before the recency protection: the top
`Math.floor(length * 0.25)` candidates' indices, sorted ascending. -/
def outlierPreliminaryIndices (data : List DataPoint) : List ℕ :=
  let values := data.map (·.value)
  let maxOutliers := Nat.floor ((data.length : ℚ) * MAX_OUTLIER_PERCENTAGE)
  sortNatAsc (((outlierSortedCandidates values).take maxOutliers).map (·.index))

/-- The recency-protection condition `lastPointZScore <
ZSCORE_STRICT_THRESHOLD`, where `lastPointZScore` is
`|v - mean| / stdDev` when `stdDev > 0` and 0 otherwise — algebraized as
`(v - mean)² < 2.2² · variance` when `variance > 0`, else true. -/
def restoreLastPoint (data : List DataPoint) : Bool :=
  let values := data.map (·.value)
  let mean := listMean values
  let variance := listVariance values
  if 0 < variance then
    decide ((values.getD (data.length - 1) 0 - mean) ^ 2 <
      ZSCORE_STRICT_THRESHOLD ^ 2 * variance)
  else true

/-- `finalOutlierIndices` after the recency protection: the most recent
point is spliced out again unless its z-score is at least
`ZSCORE_STRICT_THRESHOLD` (`(v - mean)² ≥ 2.2² · variance`, `variance > 0`). -/
def outlierFinalIndices (data : List DataPoint) : List ℕ :=
  let preliminary := outlierPreliminaryIndices data
  let lastIndex := data.length - 1
  if lastIndex ∈ preliminary then
    if restoreLastPoint data then preliminary.erase lastIndex
    else preliminary
  else preliminary

/-- Result record of `removeOutliersFromData`. -/
structure OutlierRemoval where
  cleanedData : List DataPoint
  removedOutliers : List DataPoint
  outlierIndices : List ℕ
deriving DecidableEq, Repr

/-- `removeOutliersFromData(data)`: consensus outlier removal.  Short series
are returned unchanged; otherwise the final index set partitions the data
into kept and removed points. -/
def removeOutliersFromData (data : List DataPoint) : OutlierRemoval :=
  if data.length < MIN_DATA_POINTS then
    { cleanedData := data, removedOutliers := [], outlierIndices := [] }
  else
    let finalOutlierIndices := outlierFinalIndices data
    { cleanedData :=
        (data.enum.filter fun x => !decide (x.1 ∈ finalOutlierIndices)).map
          Prod.snd,
      removedOutliers :=
        (data.enum.filter fun x => decide (x.1 ∈ finalOutlierIndices)).map
          Prod.snd,
      outlierIndices := finalOutlierIndices }

end XmrCalc

namespace XmrCalc

-- ============================================================================
-- STRUCTURAL LEMMAS ABOUT THE OUTLIER PIPELINE
-- ============================================================================

theorem dedupFirstAux_nodup :
    ∀ (l seen : List ℕ), (dedupFirstAux seen l).Nodup ∧
      ∀ x ∈ dedupFirstAux seen l, x ∉ seen := by
  intro l
  induction l with
  | nil => intro seen; simp [dedupFirstAux]
  | cons x xs ih =>
    intro seen
    by_cases hx : x ∈ seen
    · simpa [dedupFirstAux, hx] using ih seen
    · rcases ih (x :: seen) with ⟨h1, h2⟩
      rw [dedupFirstAux, if_neg hx]
      refine ⟨List.nodup_cons.mpr ⟨?_, h1⟩, ?_⟩
      · intro hmem
        exact (h2 x hmem) (List.mem_cons_self x seen)
      · intro y hy
        rcases List.mem_cons.mp hy with rfl | hy
        · exact hx
        · intro hc
          exact (h2 y hy) (List.mem_cons_of_mem _ hc)

theorem dedupFirst_nodup (l : List ℕ) : (dedupFirst l).Nodup :=
  (dedupFirstAux_nodup l []).1

theorem map_index_mk (keys : List ℕ) (f : ℕ → ℕ) (g : ℕ → ℚ) :
    ((keys.map fun i =>
      ({ index := i, methodCount := f i, zsq := g i } : Candidate)).map
        (·.index)) = keys := by
  induction keys with
  | nil => rfl
  | cons a l ih => simp only [List.map_cons, ih]

theorem outlierSorted_map_index_nodup (values : List ℚ) :
    ((outlierSortedCandidates values).map (·.index)).Nodup := by
  have h1 : ((outlierConsensusCandidates values).map (·.index)).Nodup := by
    rw [outlierConsensusCandidates, map_index_mk]
    exact dedupFirst_nodup _
  have h2 : (((outlierConsensusCandidates values).filter fun c =>
      decide (2 ≤ c.methodCount ∨
        (1 ≤ c.methodCount ∧ 9 * listVariance values < c.zsq))).map
          (·.index)).Nodup :=
    List.Nodup.sublist (List.Sublist.map _ (List.filter_sublist _)) h1
  rw [outlierSortedCandidates]
  exact ((insSortBy_perm candLe _).map (·.index)).symm.nodup h2

theorem outlierPreliminaryIndices_nodup (data : List DataPoint) :
    (outlierPreliminaryIndices data).Nodup := by
  rw [outlierPreliminaryIndices]
  refine (sortNatAsc_perm _).symm.nodup ?_
  exact List.Nodup.sublist (List.Sublist.map _ (List.take_sublist _ _))
    (outlierSorted_map_index_nodup _)

theorem outlierPreliminaryIndices_pairwise_lt (data : List DataPoint) :
    (outlierPreliminaryIndices data).Pairwise (· < ·) := by
  have h1 := sortNatAsc_pairwise
    ((((outlierSortedCandidates (data.map (·.value))).take
      (Nat.floor ((data.length : ℚ) * MAX_OUTLIER_PERCENTAGE))).map (·.index)))
  have h2 := outlierPreliminaryIndices_nodup data
  rw [outlierPreliminaryIndices] at h2 ⊢
  exact (h1.and h2).imp fun h => lt_of_le_of_ne h.1 h.2

theorem outlierFinalIndices_nodup (data : List DataPoint) :
    (outlierFinalIndices data).Nodup := by
  rw [outlierFinalIndices]
  have h := outlierPreliminaryIndices_nodup data
  split
  · split
    · exact List.Nodup.sublist (List.erase_sublist _ _) h
    · exact h
  · exact h

theorem outlierFinalIndices_pairwise_lt (data : List DataPoint) :
    (outlierFinalIndices data).Pairwise (· < ·) := by
  rw [outlierFinalIndices]
  have h := outlierPreliminaryIndices_pairwise_lt data
  split
  · split
    · exact List.Pairwise.sublist (List.erase_sublist _ _) h
    · exact h
  · exact h

theorem outlierFinalIndices_length_le (data : List DataPoint) :
    (outlierFinalIndices data).length ≤
      Nat.floor ((data.length : ℚ) * MAX_OUTLIER_PERCENTAGE) := by
  have hpre : (outlierPreliminaryIndices data).length ≤
      Nat.floor ((data.length : ℚ) * MAX_OUTLIER_PERCENTAGE) := by
    rw [outlierPreliminaryIndices]
    rw [(sortNatAsc_perm _).length_eq, List.length_map]
    exact (List.length_take_le _ _)
  rw [outlierFinalIndices]
  split
  · split
    · exact le_trans ((List.erase_sublist _ _).length_le) hpre
    · exact hpre
  · exact hpre

end XmrCalc

namespace XmrCalc

theorem filterMap_congr_of_mem {α β : Type} (l : List α) (f g : α → Option β)
    (h : ∀ a ∈ l, f a = g a) : l.filterMap f = l.filterMap g := by
  induction l with
  | nil => rfl
  | cons a l ih =>
    rw [List.filterMap_cons, List.filterMap_cons, h a (List.mem_cons_self a l),
      ih fun b hb => h b (List.mem_cons_of_mem a hb)]

theorem enumFrom_filter_mem_eq_filterMap :
    ∀ (data : List DataPoint) (i : ℕ) (S : List ℕ),
      S.Pairwise (· < ·) → (∀ s ∈ S, i ≤ s) →
      ((List.enumFrom i data).filter fun x => decide (x.1 ∈ S)).map Prod.snd =
        S.filterMap fun j => data[j - i]? := by
  intro data
  induction data with
  | nil =>
    intro i S hS hge
    simp only [List.enumFrom_nil, List.filter_nil, List.map_nil]
    symm
    rw [List.filterMap_eq_nil_iff]
    intro j hj
    simp
  | cons p rest ih =>
    intro i S hS hge
    cases S with
    | nil => simp
    | cons s S' =>
      have hsge : i ≤ s := hge s (List.mem_cons_self _ _)
      have hS' : S'.Pairwise (· < ·) := (List.pairwise_cons.mp hS).2
      have hsS' : ∀ t ∈ S', s < t := (List.pairwise_cons.mp hS).1
      have hcons : List.enumFrom i (p :: rest) =
          (i, p) :: List.enumFrom (i + 1) rest := rfl
      rcases Nat.eq_or_lt_of_le hsge with heq | hlt
      · subst heq
        rw [hcons, List.filter_cons]
        have hmem : decide ((i, p).1 ∈ i :: S') = true := by simp
        rw [hmem, if_pos rfl, List.map_cons]
        have hpred : ∀ x ∈ List.enumFrom (i + 1) rest,
            decide (x.1 ∈ i :: S') = decide (x.1 ∈ S') := by
          intro x hx
          have hx1 : i + 1 ≤ x.1 := List.le_fst_of_mem_enumFrom hx
          simp only [List.mem_cons, decide_eq_decide]
          constructor
          · rintro (h1 | h1)
            · omega
            · exact h1
          · exact Or.inr
        rw [List.filter_congr hpred,
          ih (i + 1) S' hS' fun t ht => by have := hsS' t ht; omega]
        rw [List.filterMap_cons]
        have hfi : (p :: rest)[i - i]? = some p := by simp
        rw [hfi]
        congr 1
        refine filterMap_congr_of_mem S' _ _ fun j hj => ?_
        have hij : i < j := hsS' j hj
        have hsub : j - i = (j - (i + 1)) + 1 := by omega
        rw [hsub, List.getElem?_cons_succ]
      · rw [hcons, List.filter_cons]
        have hni : decide ((i, p).1 ∈ s :: S') = false := by
          simp only [decide_eq_false_iff_not, List.mem_cons]
          rintro (rfl | hmem)
          · omega
          · have := hsS' _ hmem; omega
        rw [hni]
        simp only [Bool.false_eq_true, if_false]
        rw [ih (i + 1) (s :: S') hS (by
          intro t ht
          rcases List.mem_cons.mp ht with rfl | ht
          · omega
          · have := hsS' t ht; omega)]
        refine filterMap_congr_of_mem (s :: S') _ _ fun j hj => ?_
        have hij : i < j := by
          rcases List.mem_cons.mp hj with rfl | hj
          · exact hlt
          · have := hsS' j hj; omega
        have hsub : j - i = (j - (i + 1)) + 1 := by omega
        rw [hsub, List.getElem?_cons_succ]

theorem filter_partition_perm {α : Type} (l : List α) (q : α → Bool) :
    ((l.filter fun x => !q x) ++ l.filter q).Perm l := by
  induction l with
  | nil => simp
  | cons a t ih =>
    cases hq : q a
    · simp only [List.filter_cons, hq, Bool.not_false, if_pos rfl,
        Bool.false_eq_true, if_false, List.cons_append]
      exact ih.cons a
    · simp only [List.filter_cons, hq, Bool.not_true, Bool.false_eq_true,
        if_false, if_pos rfl]
      exact List.perm_middle.trans (ih.cons a)

theorem removeOutliers_partition_perm (data : List DataPoint) :
    ((removeOutliersFromData data).cleanedData ++
      (removeOutliersFromData data).removedOutliers).Perm data := by
  rw [removeOutliersFromData]
  by_cases h : data.length < MIN_DATA_POINTS
  · simp [h]
  · simp only [h, if_false]
    rw [← List.map_append]
    have hperm := filter_partition_perm data.enum
      fun x => decide (x.1 ∈ outlierFinalIndices data)
    have := hperm.map Prod.snd
    rwa [List.enum_map_snd] at this

theorem removeOutliers_removed_eq (data : List DataPoint) :
    (removeOutliersFromData data).removedOutliers =
      (removeOutliersFromData data).outlierIndices.filterMap fun j =>
        data[j]? := by
  rw [removeOutliersFromData]
  by_cases h : data.length < MIN_DATA_POINTS
  · simp [h]
  · simp only [h, if_false]
    have hmain := enumFrom_filter_mem_eq_filterMap data 0
      (outlierFinalIndices data) (outlierFinalIndices_pairwise_lt data)
      fun s _ => Nat.zero_le s
    simpa using hmain

end XmrCalc

namespace XmrCalc

-- ============================================================================
-- CLAIM C3 — bounded outlier fraction
-- ============================================================================

/-- C3 (confirmed): `removeOutliersFromData` never excludes more than
`Math.floor(0.25 * n)` points: both `outlierIndices` and `removedOutliers`
have length at most `⌊n * 0.25⌋`. -/
theorem claim_C3_bounded_outlier_fraction (data : List DataPoint) :
    (removeOutliersFromData data).outlierIndices.length ≤
        Nat.floor ((data.length : ℚ) * (25/100)) ∧
      (removeOutliersFromData data).removedOutliers.length ≤
        Nat.floor ((data.length : ℚ) * (25/100)) := by
  have hidx : (removeOutliersFromData data).outlierIndices.length ≤
      Nat.floor ((data.length : ℚ) * (25/100)) := by
    rw [removeOutliersFromData]
    by_cases h : data.length < MIN_DATA_POINTS
    · simp [h]
    · simp only [h, if_false]
      exact outlierFinalIndices_length_le data
  refine ⟨hidx, ?_⟩
  rw [removeOutliers_removed_eq data]
  exact le_trans (List.length_filterMap_le _ _) hidx

-- ============================================================================
-- CLAIM C10 — the outputs partition the input
-- ============================================================================

/-- C10 (confirmed): `cleanedData` and `removedOutliers` partition the
input: both are subsequences of the input (so each preserves the input's
relative order), every input point lands in exactly one of the two outputs
(the occurrence counts add up), the lengths sum to the input length, and
`removedOutliers` is exactly the points at the returned (ascending,
duplicate-free) `outlierIndices`. -/
theorem claim_C10_partition (data : List DataPoint) :
    (removeOutliersFromData data).cleanedData.Sublist data ∧
      (removeOutliersFromData data).removedOutliers.Sublist data ∧
      (∀ p : DataPoint,
        (removeOutliersFromData data).cleanedData.count p +
          (removeOutliersFromData data).removedOutliers.count p =
          data.count p) ∧
      ((removeOutliersFromData data).cleanedData.length +
          (removeOutliersFromData data).removedOutliers.length =
        data.length) ∧
      (removeOutliersFromData data).removedOutliers =
        (removeOutliersFromData data).outlierIndices.filterMap fun j =>
          data[j]? := by
  have hperm := removeOutliers_partition_perm data
  refine ⟨?_, ?_, ?_, ?_, removeOutliers_removed_eq data⟩
  · rw [removeOutliersFromData]
    by_cases h : data.length < MIN_DATA_POINTS
    · simp [h]
    · simp only [h, if_false]
      have hsub := List.Sublist.map Prod.snd
        (List.filter_sublist (p := fun x =>
          !decide (x.1 ∈ outlierFinalIndices data)) data.enum)
      rwa [List.enum_map_snd] at hsub
  · rw [removeOutliersFromData]
    by_cases h : data.length < MIN_DATA_POINTS
    · simp [h]
    · simp only [h, if_false]
      have hsub := List.Sublist.map Prod.snd
        (List.filter_sublist (p := fun x =>
          decide (x.1 ∈ outlierFinalIndices data)) data.enum)
      rwa [List.enum_map_snd] at hsub
  · intro p
    have hc := hperm.count_eq p
    rwa [List.count_append] at hc
  · have hl := hperm.length_eq
    rwa [List.length_append] at hl

-- ============================================================================
-- CLAIM C4 — the recency guard
-- ============================================================================

/-- C4 (amended): if `removeOutliersFromData` leaves the last point (index
`n-1`) in the returned `outlierIndices`, then that point's raw z-score
`|value - mean| / stdDev` is at least `ZSCORE_STRICT_THRESHOLD = 2.2`
(equivalently, `variance > 0` and `(v - mean)² ≥ 2.2² · variance`) — the
threshold is 2.2, not 3.0 as the claim states; contrapositively, a
candidate last point with z-score below 2.2 is restored (removed from the
exclusion list). -/
theorem claim_C4_recency_guard (data : List DataPoint)
    (h : data.length - 1 ∈ (removeOutliersFromData data).outlierIndices) :
    0 < listVariance (data.map (·.value)) ∧
      ZSCORE_STRICT_THRESHOLD ^ 2 * listVariance (data.map (·.value)) ≤
        ((data.map (·.value)).getD (data.length - 1) 0 -
          listMean (data.map (·.value))) ^ 2 := by
  rw [removeOutliersFromData] at h
  by_cases hn : data.length < MIN_DATA_POINTS
  · simp [hn] at h
  · simp only [hn, if_false] at h
    simp only [outlierFinalIndices] at h
    by_cases hmem : data.length - 1 ∈ outlierPreliminaryIndices data
    · rw [if_pos hmem] at h
      by_cases hres : restoreLastPoint data = true
      · rw [if_pos hres] at h
        have hnd := outlierPreliminaryIndices_nodup data
        exact absurd ((hnd.mem_erase_iff.mp h).1 rfl) not_false
      · rw [if_neg hres] at h
        simp only [restoreLastPoint] at hres
        by_cases hv : 0 < listVariance (data.map (·.value))
        · rw [if_pos hv] at hres
          refine ⟨hv, ?_⟩
          have hge : ¬ (((data.map (·.value)).getD (data.length - 1) 0 -
              listMean (data.map (·.value))) ^ 2 <
              ZSCORE_STRICT_THRESHOLD ^ 2 *
                listVariance (data.map (·.value))) := by
            simpa using hres
          linarith
        · rw [if_neg hv] at hres
          exact absurd rfl hres
    · rw [if_neg hmem] at h
      exact absurd h hmem

/-- The C4 counterexample series: seven equal points and one mild outlier. -/
def exC4 : List DataPoint := mkSeries [10, 10, 10, 10, 10, 10, 10, 11]

/-- C4, counterexample: on `[10,10,10,10,10,10,10,11]` the last point (index
7) stays excluded (`outlierIndices = [7]`), yet its raw z-score is
`√7 ≈ 2.65`, which does not exceed 3.0: `(11 - mean)² = 49/64` is smaller
than `9 · variance = 63/64`.  The code's actual guard threshold is
`ZSCORE_STRICT_THRESHOLD = 2.2`. -/
theorem claim_C4_counterexample :
    (removeOutliersFromData exC4).outlierIndices = [7] ∧
      exC4.length - 1 = 7 ∧
      ((exC4.map (·.value)).getD 7 0 - listMean (exC4.map (·.value))) ^ 2 <
        9 * listVariance (exC4.map (·.value)) := by
  with_unfolding_all decide

/-- C4, witness for the amended theorem at the counterexample series. -/
theorem claim_C4_witness :
    0 < listVariance (exC4.map (·.value)) ∧
      ZSCORE_STRICT_THRESHOLD ^ 2 * listVariance (exC4.map (·.value)) ≤
        ((exC4.map (·.value)).getD (exC4.length - 1) 0 -
          listMean (exC4.map (·.value))) ^ 2 :=
  claim_C4_recency_guard exC4 (by with_unfolding_all decide)

end XmrCalc

namespace XmrCalc

-- ============================================================================
-- SEGMENTATION ENGINE (`detectViolationsWithSegments`)
-- ============================================================================

/-- `SegmentStats` — one per segment between adjacent dividers. -/
structure SegmentStats where
  xLeft : ℚ
  xRight : ℚ
  limits : XMRLimits
  dataPoints : List MovingRangePoint
deriving DecidableEq, Repr

/-- Fieldwise append of violation records: the effect of one segment's
`push` loop on the accumulated `allViolations`. -/
def appendViolations (a b : ViolationDetails) : ViolationDetails :=
  { outsideLimits := a.outsideLimits ++ b.outsideLimits,
    runningPoints := a.runningPoints ++ b.runningPoints,
    fourNearLimit := a.fourNearLimit ++ b.fourNearLimit,
    twoOfThreeBeyondTwoSigma :=
      a.twoOfThreeBeyondTwoSigma ++ b.twoOfThreeBeyondTwoSigma,
    fifteenWithinOneSigma :=
      a.fifteenWithinOneSigma ++ b.fifteenWithinOneSigma }

/-- `data.findIndex(d => d.timestamp === point.timestamp &&
Math.abs(d.value - point.value) < 0.001)`. -/
def findGlobalIndex (data : List MovingRangePoint)
    (point : MovingRangePoint) : Option ℕ :=
  data.findIdx? fun d =>
    d.timestamp == point.timestamp &&
      decide (|d.value - point.value| < 1/1000)

/-- The segment-local→global remap loop: for each segment point in order,
resolve its global index and push it onto each rule list whose local list
contains the local index. -/
def remapSegmentViolations (data : List MovingRangePoint)
    (segmentData : List MovingRangePoint) (v : ViolationDetails) :
    ViolationDetails :=
  { outsideLimits := segmentData.enum.filterMap fun (localIndex, point) =>
      match findGlobalIndex data point with
      | some globalIndex =>
        if localIndex ∈ v.outsideLimits then some globalIndex else none
      | none => none,
    runningPoints := segmentData.enum.filterMap fun (localIndex, point) =>
      match findGlobalIndex data point with
      | some globalIndex =>
        if localIndex ∈ v.runningPoints then some globalIndex else none
      | none => none,
    fourNearLimit := segmentData.enum.filterMap fun (localIndex, point) =>
      match findGlobalIndex data point with
      | some globalIndex =>
        if localIndex ∈ v.fourNearLimit then some globalIndex else none
      | none => none,
    twoOfThreeBeyondTwoSigma :=
      segmentData.enum.filterMap fun (localIndex, point) =>
        match findGlobalIndex data point with
        | some globalIndex =>
          if localIndex ∈ v.twoOfThreeBeyondTwoSigma then some globalIndex
          else none
        | none => none,
    fifteenWithinOneSigma :=
      segmentData.enum.filterMap fun (localIndex, point) =>
        match findGlobalIndex data point with
        | some globalIndex =>
          if localIndex ∈ v.fifteenWithinOneSigma then some globalIndex
          else none
        | none => none }

/-- One segment's processing: the limits / trend overlay is chosen from the
supplied overlays only when `segmentIndex = 0` (and locked limits only when
the status is exactly `LOCKED`); detection then runs with the chosen
limits, and local indices are remapped to global ones. -/
def segmentContribution (data : List MovingRangePoint) (seg : SegmentStats)
    (segmentIndex : ℕ) (lockedLimits : Option XMRLimits)
    (trendLimits : Option TrendLimits) (lockedLimitStatus : Option ℕ) :
    ViolationDetails :=
  let overlay : XMRLimits × Option TrendLimits :=
    if segmentIndex = 0 then
      if lockedLimits.isSome ∧ lockedLimitStatus = some LOCKED then
        (lockedLimits.getD seg.limits, none)
      else (seg.limits, trendLimits)
    else (seg.limits, none)
  remapSegmentViolations data seg.dataPoints
    (detectViolations seg.dataPoints overlay.1 overlay.2)

/-- The `segments.forEach` loop of `detectViolationsWithSegments`. -/
def segmentsLoop (data : List MovingRangePoint)
    (lockedLimits : Option XMRLimits) (trendLimits : Option TrendLimits)
    (lockedLimitStatus : Option ℕ) :
    List SegmentStats → ℕ → ViolationDetails
  | [], _ => emptyViolations
  | seg :: rest, segmentIndex =>
    appendViolations
      (segmentContribution data seg segmentIndex lockedLimits trendLimits
        lockedLimitStatus)
      (segmentsLoop data lockedLimits trendLimits lockedLimitStatus rest
        (segmentIndex + 1))

/-- `detectViolationsWithSegments(data, segments, lockedLimits?,
trendLimits?, lockedLimitStatus?)`. -/
def detectViolationsWithSegments (data : List MovingRangePoint)
    (segments : List SegmentStats) (lockedLimits : Option XMRLimits := none)
    (trendLimits : Option TrendLimits := none)
    (lockedLimitStatus : Option ℕ := none) : ViolationDetails :=
  if data.length = 0 ∨ segments.length = 0 then emptyViolations
  else segmentsLoop data lockedLimits trendLimits lockedLimitStatus segments 0

theorem appendViolations_empty_right (v : ViolationDetails) :
    appendViolations v emptyViolations = v := by
  simp [appendViolations, emptyViolations]

theorem segmentContribution_overlay_free (data : List MovingRangePoint)
    (seg : SegmentStats) (i : ℕ) (hi : i ≠ 0) (lo : Option XMRLimits)
    (tr : Option TrendLimits) (st : Option ℕ) (j : ℕ) :
    segmentContribution data seg i lo tr st =
      segmentContribution data seg j none none none := by
  rw [segmentContribution, segmentContribution]
  simp only [if_neg hi]
  by_cases hj : j = 0
  · subst hj
    simp
  · simp [hj]

theorem segmentsLoop_overlay_free (data : List MovingRangePoint)
    (lo : Option XMRLimits) (tr : Option TrendLimits) (st : Option ℕ) :
    ∀ (segs : List SegmentStats) (i j : ℕ),
      segmentsLoop data lo tr st segs (i + 1) =
        segmentsLoop data none none none segs j := by
  intro segs
  induction segs with
  | nil => intro i j; rfl
  | cons seg rest ih =>
    intro i j
    rw [segmentsLoop, segmentsLoop]
    rw [segmentContribution_overlay_free data seg (i + 1) (Nat.succ_ne_zero i)
      lo tr st j, ih (i + 1) (j + 1)]

/-- C5 (confirmed): a supplied locked-limits or trend-limits overlay affects
only the first segment: processing `seg :: rest` with any overlays equals
processing `[seg]` with those overlays followed by processing `rest` with
*no* overlays at all — so every segment after the first is evaluated against
its own segment limits with no trend overlay, regardless of the overlays
passed in. -/
theorem claim_C5_overlays_first_segment_only (data : List MovingRangePoint)
    (seg : SegmentStats) (rest : List SegmentStats)
    (lockedLimits : Option XMRLimits) (trendLimits : Option TrendLimits)
    (lockedLimitStatus : Option ℕ) :
    detectViolationsWithSegments data (seg :: rest) lockedLimits trendLimits
        lockedLimitStatus =
      appendViolations
        (detectViolationsWithSegments data [seg] lockedLimits trendLimits
          lockedLimitStatus)
        (detectViolationsWithSegments data rest none none none) := by
  by_cases hd : data.length = 0
  · simp [detectViolationsWithSegments, hd, appendViolations, emptyViolations]
  · rw [detectViolationsWithSegments, detectViolationsWithSegments,
      detectViolationsWithSegments]
    rw [if_neg (by simp [hd]), if_neg (by simp [hd])]
    by_cases hr : rest.length = 0
    · rcases List.length_eq_zero.mp hr with rfl
      have h3 : (if data.length = 0 ∨ ([] : List SegmentStats).length = 0 then
          emptyViolations
        else segmentsLoop data none none none [] 0) = emptyViolations := by
        split
        · rfl
        · rfl
      rw [h3, appendViolations_empty_right]
    · rw [if_neg (by simp [hd, hr])]
      rw [segmentsLoop, segmentsLoop, segmentsLoop]
      rw [appendViolations_empty_right]
      rw [segmentsLoop_overlay_free data lockedLimits trendLimits
        lockedLimitStatus rest 0 0]

end XmrCalc

namespace XmrCalc

-- ============================================================================
-- SEASONALITY ENGINE (`periodiseData`, `applySeasonalFactors`)
-- ============================================================================

/-- `SeasonalityPeriod = "year" | "quarter" | "month" | "week"`. -/
inductive SeasonalityPeriod
  | year
  | quarter
  | month
  | week
deriving DecidableEq, Repr

/-- `SeasonalityGrouping = "none" | "week" | "month" | "quarter"`. -/
inductive SeasonalityGrouping
  | none
  | week
  | month
  | quarter
deriving DecidableEq, Repr

/-- The observable fields of a JavaScript `Date` that the seasonality engine
reads. -/
structure JSDate where
  getTime : ℚ
  fullYear : ℤ
  month : ℕ
  dayOfMonth : ℕ
  dayOfWeek : ℕ
deriving DecidableEq, Repr

/-- The `Date` environment: `new Date(timestamp)` parsing and
`new Date(year, month, day)` construction are host-environment calendar
arithmetic, abstracted here; the seasonal theorems hold for every
environment. -/
structure DateEnv where
  parse : String → JSDate
  ofYMD : ℤ → ℕ → ℕ → JSDate

/-- `String.padStart(2, "0")`. -/
def padStart2 (s : String) : String :=
  if s.length = 0 then "00" else if s.length = 1 then "0" ++ s else s

/-- `weekNum = Math.ceil(((t - tJan1)/86400000 + jan1.getDay() + 1) / 7)`. -/
def weekNumber (env : DateEnv) (date : JSDate) : ℤ :=
  let onejan := env.ofYMD date.fullYear 0 1
  (((date.getTime - onejan.getTime) / 86400000 +
      (onejan.dayOfWeek : ℚ) + 1) / 7).ceil

/-- The `(periodKey, subPeriodIndex)` pair computed by the `switch` in
`periodiseData`. -/
def periodKeyAndSub (env : DateEnv) (period : SeasonalityPeriod)
    (ts : String) : String × ℤ :=
  let date := env.parse ts
  match period with
  | .year =>
    let startOfYear := env.ofYMD date.fullYear 0 1
    let y := date.fullYear
    (toString y, ((date.getTime - startOfYear.getTime) / 86400000).floor)
  | .quarter =>
    let quarter := date.month / 3 + 1
    let quarterStart := env.ofYMD date.fullYear ((quarter - 1) * 3) 1
    let y := date.fullYear
    (s!"{y}-Q{quarter}",
      ((date.getTime - quarterStart.getTime) / 86400000).floor)
  | .month =>
    let y := date.fullYear
    let mm := padStart2 (toString (date.month + 1))
    (s!"{y}-{mm}", (date.dayOfMonth : ℤ) - 1)
  | .week =>
    let weekNum := weekNumber env date
    let y := date.fullYear
    let ww := padStart2 (toString weekNum)
    (s!"{y}-W{ww}", (date.dayOfWeek : ℤ))

/-- `Map.set` / object-property assignment: update in place when the key
exists (keeping its position), append otherwise. -/
def mapUpsert {κ ν : Type} [BEq κ] (k : κ) (v : ν) :
    List (κ × ν) → List (κ × ν)
  | [] => [(k, v)]
  | (k', v') :: rest =>
    if k' == k then (k', v) :: rest else (k', v') :: mapUpsert k v rest

/-- One step of the grouping loop in `periodiseData`. -/
def periodiseInsert (env : DateEnv) (period : SeasonalityPeriod)
    (acc : List (String × List (ℤ × DataPoint))) (point : DataPoint) :
    List (String × List (ℤ × DataPoint)) :=
  let ks := periodKeyAndSub env period point.timestamp
  let inner := (List.lookup ks.1 acc).getD []
  mapUpsert ks.1 (mapUpsert ks.2 point inner) acc

/-- JavaScript's default (code-unit lexicographic) string sort order. -/
def strLeB (a b : String) : Bool := decide (a < b) || a == b

/-- `periodiseData(data, period)`: bucket points into
(period, position-within-period) cells, then emit periods in sorted key
order, each period's points in ascending sub-period order. -/
def periodiseData (env : DateEnv) (data : List DataPoint)
    (period : SeasonalityPeriod := .year) : List (List DataPoint) :=
  if data.length = 0 then []
  else
    let groupedData := data.foldl (periodiseInsert env period) []
    let sortedPeriods := insSortBy strLeB (groupedData.map (·.1))
    sortedPeriods.map fun periodKey =>
      let periodData := (List.lookup periodKey groupedData).getD []
      let sortedIndices := insSortBy (fun a b : ℤ => decide (a ≤ b))
        (periodData.map (·.1))
      sortedIndices.filterMap fun idx => List.lookup idx periodData

/-- The `dateSfMap` built by `applySeasonalFactors`: timestamp → factor,
positional within the period when ungrouped, group-of-year indexed when
grouped. -/
def buildDateSfMap (env : DateEnv) (data : List DataPoint)
    (seasonalFactors : List ℚ) (period : SeasonalityPeriod)
    (grouping : SeasonalityGrouping) : List (String × ℚ) :=
  if grouping = SeasonalityGrouping.none then
    (periodiseData env data period).foldl
      (fun acc periodData =>
        periodData.enum.foldl
          (fun acc2 x =>
            if x.1 < seasonalFactors.length then
              mapUpsert x.2.timestamp (seasonalFactors.getD x.1 0) acc2
            else acc2)
          acc)
      []
  else
    data.foldl
      (fun acc point =>
        let date := env.parse point.timestamp
        let factorIndex : ℤ :=
          match grouping with
          | .month => date.month
          | .week => weekNumber env date - 1
          | .quarter => (date.month / 3 : ℕ)
          | .none => 0
        if 0 ≤ factorIndex ∧ factorIndex < (seasonalFactors.length : ℤ) then
          mapUpsert point.timestamp (seasonalFactors.getD factorIndex.toNat 0)
            acc
        else acc)
      []

/-- `applySeasonalFactors(data, seasonalFactors, period, grouping)`:
deseasonalize by dividing each matched point's value by its factor (rounded
to 2 decimals); points with factor 0 or no matched factor are copied
unchanged. -/
def applySeasonalFactors (env : DateEnv) (data : List DataPoint)
    (seasonalFactors : List ℚ) (period : SeasonalityPeriod := .year)
    (grouping : SeasonalityGrouping := .none) : List DataPoint :=
  if data.length = 0 ∨ seasonalFactors.length = 0 then data
  else
    let dateSfMap := buildDateSfMap env data seasonalFactors period grouping
    data.map fun point =>
      match List.lookup point.timestamp dateSfMap with
      | some sf =>
        if sf ≠ 0 then
          { timestamp := point.timestamp,
            value := roundToDecimalPrecision (point.value / sf),
            confidence := point.confidence }
        else point
      | Option.none => point

end XmrCalc

namespace XmrCalc

theorem foldl_const {α β : Type} (f : α → β → α) (h : ∀ a x, f a x = a) :
    ∀ (l : List β) (a : α), l.foldl f a = a := by
  intro l
  induction l with
  | nil => intro a; rfl
  | cons x xs ih => intro a; rw [List.foldl_cons, h a x, ih a]

theorem buildDateSfMap_nil_factors (env : DateEnv) (data : List DataPoint)
    (period : SeasonalityPeriod) (grouping : SeasonalityGrouping) :
    buildDateSfMap env data [] period grouping = [] := by
  rw [buildDateSfMap]
  by_cases hg : grouping = SeasonalityGrouping.none
  · rw [if_pos hg]
    refine foldl_const _ (fun acc pd => ?_) _ _
    refine foldl_const _ (fun acc2 x => ?_) _ _
    simp
  · rw [if_neg hg]
    refine foldl_const _ (fun acc point => ?_) _ _
    rw [if_neg]
    rintro ⟨h1, h2⟩
    have h0 : (0 : ℤ) < 0 := lt_of_le_of_lt h1 (by simpa using h2)
    exact absurd h0 (lt_irrefl 0)


theorem abs_roundToDecimalPrecision_sub_le (q : ℚ) :
    |roundToDecimalPrecision q - q| ≤ 1 / 200 := by
  rw [roundToDecimalPrecision]
  have hf : ((10 : ℚ) ^ (2 : ℕ)) = 100 := by norm_num
  simp only [hf]
  have h1 : ((⌊q * 100 + 1/2⌋ : ℤ) : ℚ) ≤ q * 100 + 1/2 := Int.floor_le _
  have h2 : q * 100 + 1/2 - 1 < ((⌊q * 100 + 1/2⌋ : ℤ) : ℚ) :=
    Int.sub_one_lt_floor _
  rw [abs_le]
  constructor
  · linarith
  · linarith

/-- C8 (confirmed): for every date environment, series, factor list, period
and grouping, `applySeasonalFactors` maps each input point to an output
point at the same position with the same timestamp; when the point's
matched factor `sf` (its `dateSfMap` entry) exists and is non-zero,
multiplying the output value back by `sf` reproduces the original value
within the tolerance of the 2-decimal rounding performed on the divided
value (`|q.value * sf - p.value| ≤ |sf| / 200`); points with factor 0 or
with no matched factor are returned unchanged. -/
theorem claim_C8_deseasonalize_roundtrip (env : DateEnv)
    (data : List DataPoint) (seasonalFactors : List ℚ)
    (period : SeasonalityPeriod) (grouping : SeasonalityGrouping)
    (i : ℕ) (p : DataPoint) (h : data[i]? = some p) :
    ∃ q : DataPoint,
      (applySeasonalFactors env data seasonalFactors period grouping)[i]? =
          some q ∧
        q.timestamp = p.timestamp ∧
        match List.lookup p.timestamp
            (buildDateSfMap env data seasonalFactors period grouping) with
        | some sf =>
          if sf = 0 then q = p else |q.value * sf - p.value| ≤ |sf| / 200
        | Option.none => q = p := by
  rw [applySeasonalFactors]
  by_cases hguard : data.length = 0 ∨ seasonalFactors.length = 0
  · rw [if_pos hguard]
    refine ⟨p, h, rfl, ?_⟩
    rcases hguard with hd | hf
    · rw [List.length_eq_zero.mp hd] at h
      simp at h
    · rw [List.length_eq_zero.mp hf, buildDateSfMap_nil_factors]
      simp
  · rw [if_neg hguard]
    simp only [List.getElem?_map, h, Option.map_some']
    cases hlook : List.lookup p.timestamp
        (buildDateSfMap env data seasonalFactors period grouping) with
    | none => exact ⟨p, rfl, rfl, rfl⟩
    | some sf =>
      by_cases hz : sf = 0
      · refine ⟨p, by simp [hz], rfl, ?_⟩
        simp [hz]
      · refine ⟨DataPoint.mk p.timestamp
            (roundToDecimalPrecision (p.value / sf)) p.confidence,
            by simp [hz], rfl, ?_⟩
        simp only [hz, if_false]
        have hkey : roundToDecimalPrecision (p.value / sf) * sf - p.value =
            (roundToDecimalPrecision (p.value / sf) - p.value / sf) * sf := by
          field_simp
        show |roundToDecimalPrecision (p.value / sf) * sf - p.value| ≤
          |sf| / 200
        rw [hkey, abs_mul]
        have hb := abs_roundToDecimalPrecision_sub_le (p.value / sf)
        have hsf : (0 : ℚ) < |sf| := abs_pos.mpr hz
        calc |roundToDecimalPrecision (p.value / sf) - p.value / sf| * |sf|
            ≤ (1 / 200) * |sf| :=
              mul_le_mul_of_nonneg_right hb (le_of_lt hsf)
          _ = |sf| / 200 := by ring

end XmrCalc

namespace XmrCalc

/-- A concrete `Date` environment for the C8 witness: parsing maps a
timestamp to a day offset given by its length; construction pins the start
of the year at time 0. -/
def dateEnvW : DateEnv :=
  { parse := fun ts =>
      { getTime := (ts.length : ℚ) * 86400000, fullYear := 2024, month := 0,
        dayOfMonth := 1, dayOfWeek := 1 },
    ofYMD := fun y _ _ =>
      { getTime := 0, fullYear := y, month := 0, dayOfMonth := 1,
        dayOfWeek := 1 } }

/-- Concrete series for the C8 witness. -/
def dataC8 : List DataPoint :=
  [DataPoint.mk "a" 10 none, DataPoint.mk "bb" 20 none]

/-- Concrete factors for the C8 witness. -/
def factorsC8 : List ℚ := [2, 4]

/-- C8, witness: the round-trip theorem applied at a concrete environment,
series, factor list and point. -/
theorem claim_C8_witness :
    ∃ q : DataPoint,
      (applySeasonalFactors dateEnvW dataC8 factorsC8 SeasonalityPeriod.year
          SeasonalityGrouping.none)[0]? = some q ∧
        q.timestamp = (DataPoint.mk "a" 10 none).timestamp ∧
        match List.lookup (DataPoint.mk "a" 10 none).timestamp
            (buildDateSfMap dateEnvW dataC8 factorsC8 SeasonalityPeriod.year
              SeasonalityGrouping.none) with
        | some sf =>
          if sf = 0 then q = DataPoint.mk "a" 10 none
          else |q.value * sf - (DataPoint.mk "a" 10 none).value| ≤ |sf| / 200
        | Option.none => q = DataPoint.mk "a" 10 none :=
  claim_C8_deseasonalize_roundtrip dateEnvW dataC8 factorsC8
    SeasonalityPeriod.year SeasonalityGrouping.none 0
    (DataPoint.mk "a" 10 none) rfl

end XmrCalc

namespace XmrCalc

-- ============================================================================
-- SANITY EXAMPLES (the spec's worked examples, checking embedding fidelity)
-- ============================================================================

/-- Spec Example 1: values `[10,12,11,13,12,14,13,15,14,16]`, mean mode ⇒
avgX = 13.00, avgMovement = 1.56, UNPL = 17.14, LNPL = 8.86, URL = 5.08,
lowerQuartile = 10.93, upperQuartile = 15.07. -/
theorem exampleOne_control_limits :
    calculateXMRLimits exC1 false =
      { avgX := 13, avgMovement := 156/100, UNPL := 1714/100,
        LNPL := 886/100, URL := 508/100, lowerQuartile := 1093/100,
        upperQuartile := 1507/100 } := by
  set_option maxRecDepth 4000 in with_unfolding_all decide

/-- Spec Example 2: values `[5,8,11,14,17]` at indices 0..4 ⇒ the regression
returns exactly m = 3, c = 5. -/
theorem exampleTwo_regression :
    calculateLinearRegression (mkSeries [5, 8, 11, 14, 17]) =
      some (3, 5) := by
  with_unfolding_all decide

end XmrCalc
